import Mathlib

/-!
Shallow embedding of the financial-data pipeline in src/main.py.

The program is a four-stage pandas ETL job:
  extract_to_bronze       (main.py lines 27-60)
  transform_to_silver     (main.py lines 84-109)
  create_gold_table       (main.py lines 112-127)
  dataframe_to_sheets_values / load_data_to_sheets (lines 63-81, 130-151)
  main                    (lines 156-180)

Modelling conventions:
* pandas floating-point scalars are modelled by the type FV: an exact
  rational together with the two IEEE infinities and NaN.  The arithmetic
  used by the pipeline (division, multiplication, subtraction) follows the
  IEEE special-value rules; the rational part is exact (no rounding).
  The distinction between +0.0 and -0.0 is not modelled: 0 is treated as
  positive in sign computations.
* a DataFrame cell is the inductive type Cell: a missing value (NaN / NaT /
  pd.NA), a float (FV) value, an integer, a string, or a timestamp.  The
  Boolean argument of Cell.num / Cell.int records whether the scalar is a
  numpy array-backed wrapper (True, the normal state of values stored in a
  DataFrame column) or a native Python scalar (False, the result of .item()).
* a DataFrame is a column-name list together with rows of (column, cell)
  pairs; row order and column order are significant, as in pandas.
* pd.to_numeric(errors=coerce) is modelled per cell; string cells are
  modelled as non-numeric (they coerce to NaN).  A numeric string in the
  source data is represented directly by a numeric cell.
* operations that raise in pandas on ill-typed frames (comparison of
  mixed-type columns in sort_values, .astype(int) of a non-finite value,
  column projection of a missing column) are totalised with junk values;
  every theorem that depends on such an operation carries typing
  hypotheses under which the model agrees with pandas.
-/

/-- IEEE-style float value: NaN, signed infinity (inf true is positive
infinity), or a finite exact rational. -/
inductive FV where
  | nan : FV
  | inf : Bool → FV
  | fin : ℚ → FV
deriving DecidableEq

namespace FV

/-- Float multiplication with IEEE special-value rules (sign of zero not
modelled: 0 counts as positive). -/
def mul : FV → FV → FV
  | nan, _ => nan
  | _, nan => nan
  | inf s, inf t => inf (s == t)
  | inf s, fin q => if q = 0 then nan else inf (s == decide (0 < q))
  | fin q, inf s => if q = 0 then nan else inf (s == decide (0 < q))
  | fin a, fin b => fin (a * b)

/-- Float division with IEEE special-value rules: x/0 is ±infinity for
nonzero finite x, 0/0 is NaN. -/
def div : FV → FV → FV
  | nan, _ => nan
  | _, nan => nan
  | inf _, inf _ => nan
  | inf s, fin q => inf (s == decide (0 ≤ q))
  | fin _, inf _ => fin 0
  | fin a, fin b => if b = 0 then (if a = 0 then nan else inf (decide (0 < a))) else fin (a / b)

/-- Float subtraction with IEEE special-value rules. -/
def sub : FV → FV → FV
  | nan, _ => nan
  | _, nan => nan
  | inf s, inf t => if s == t then nan else inf s
  | inf s, fin _ => inf s
  | fin _, inf t => inf (!t)
  | fin a, fin b => fin (a - b)

/-- fillna(0) on a float scalar: NaN becomes 0, everything else (including
the infinities) is kept. -/
def fillnaZero : FV → FV
  | nan => fin 0
  | x => x

/-- Truncation toward zero of a finite rational, as numpy float-to-int
conversion does. -/
def ratTruncZ (q : ℚ) : ℤ := q.num.tdiv (q.den : ℤ)

/-- astype(int) of a float scalar.  pandas raises IntCastingNaNError when
the value is not finite; the model returns 0 there, and every theorem
about Volume carries a finiteness hypothesis. -/
def toIntTrunc : FV → ℤ
  | fin q => ratTruncZ q
  | _ => 0

/-- The value is NaN. -/
def isNan : FV → Bool
  | nan => true
  | _ => false

/-- The value is a finite rational. -/
def isFin : FV → Bool
  | fin _ => true
  | _ => false

end FV

/-- A calendar timestamp, reduced to the year/month/day triple that the
pipeline reads and writes (pandas Timestamps carry more precision, which
the program never uses). -/
structure Timestamp where
  y : ℕ
  m : ℕ
  d : ℕ
deriving DecidableEq

/-- One DataFrame cell. -/
inductive Cell where
  | na : Cell
  | num : FV → Bool → Cell
  | int : ℤ → Bool → Cell
  | str : String → Cell
  | date : Timestamp → Cell
deriving DecidableEq

namespace Cell

/-- pd.isnull: missing values and float NaN count as null. -/
def isNull : Cell → Bool
  | na => true
  | num FV.nan _ => true
  | _ => false

/-- pd.to_numeric(errors=coerce) on one cell: numbers pass through,
everything non-numeric becomes NaN.  (A parsable numeric string in the
source data is represented directly as a numeric cell, see the header.) -/
def to_numeric : Cell → FV
  | na => FV.nan
  | num x _ => x
  | int n _ => FV.fin (n : ℚ)
  | str _ => FV.nan
  | date _ => FV.nan

/-- Read a cell as a float for column arithmetic (the pipeline only does
this after the numeric coercion, where every cell is a float). -/
def toFV : Cell → FV
  | num x _ => x
  | int n _ => FV.fin (n : ℚ)
  | _ => FV.nan

/-- .item(): a numpy scalar becomes the corresponding native scalar; any
other value raises AttributeError inside to_builtin and is returned
unchanged. -/
def to_builtin : Cell → Cell
  | num x _ => num x false
  | int n _ => int n false
  | c => c

/-- fillna(0) on one cell.  The fill value 0 is a native Python int; in a
float column pandas stores it as a float (keeping the numpy backing), in
an object column it is stored as the native int. -/
def fillna0 : Cell → Cell
  | na => int 0 false
  | num FV.nan b => num (FV.fin 0) b
  | c => c

end Cell

/-- One DataFrame row: (column name, cell) pairs in column order. -/
abbrev Row : Type := List (String × Cell)

/-- First cell stored under a column name, if any. -/
def getCell : Row → String → Option Cell
  | [], _ => none
  | (k, v) :: r, c => if k = c then some v else getCell r c

/-- Cell stored under a column name, Cell.na when the row has no such
column (pandas raises KeyError there; theorems that read a column carry a
hypothesis that the column is present). -/
def getCellD (r : Row) (c : String) : Cell := (getCell r c).getD Cell.na

/-- Column assignment on one row: replace the cells of an existing column,
or append a new column at the end, as df[c] = ... does. -/
def upsertCell (r : Row) (c : String) (v : Cell) : Row :=
  if r.any (fun p => p.1 = c) then
    r.map (fun p => if p.1 = c then (c, v) else p)
  else
    r ++ [(c, v)]

/-- A DataFrame: ordered column names and ordered rows. -/
structure Frame where
  cols : List String
  rows : List Row
deriving DecidableEq

/-- df.empty: true when either axis has length zero. -/
def Frame.emptyB (df : Frame) : Bool := df.rows.isEmpty || df.cols.isEmpty

/-- c in df.columns. -/
def Frame.hasCol (df : Frame) (c : String) : Bool := df.cols.contains c

/-- df[c] = f(row) for every row: column assignment from a per-row value. -/
def Frame.assign (df : Frame) (c : String) (f : Row → Cell) : Frame :=
  { cols := if df.cols.contains c then df.cols else df.cols ++ [c],
    rows := df.rows.map (fun r => upsertCell r c (f r)) }

/-- df[c] = g(df[c]): rewrite one column cell-wise. -/
def Frame.mapColCells (df : Frame) (c : String) (g : Cell → Cell) : Frame :=
  df.assign c (fun r => g (getCellD r c))

/-- df.drop(columns=cs). -/
def Frame.dropCols (df : Frame) (cs : List String) : Frame :=
  { cols := df.cols.filter (fun c => !cs.contains c),
    rows := df.rows.map (fun r => r.filter (fun p => !cs.contains p.1)) }

/-- df.fillna(0), applied to every cell of the frame. -/
def Frame.fillnaZero (df : Frame) : Frame :=
  { cols := df.cols,
    rows := df.rows.map (fun r => r.map (fun p => (p.1, p.2.fillna0))) }

/-- Well-formedness of a frame: every row has exactly the frame columns,
in order.  pandas guarantees this by construction; in the model it is a
hypothesis of the theorems that need it. -/
def Frame.WF (df : Frame) : Bool :=
  df.rows.all (fun r => r.map Prod.fst == df.cols)

/-- pd.DataFrame(): the empty frame. -/
def emptyFrame : Frame := { cols := [], rows := [] }

/-! ## Cleaner: transform_to_silver (main.py lines 84-109) -/

/-- The required Silver columns, in the order of main.py line 91. -/
def silverRequired : List String :=
  ["Ticker", "Date", "Open", "High", "Low", "Close", "Volume", "Adj_Close"]

/-- Insert a null-valued column when it is missing (main.py lines 92-94). -/
def addMissing (df : Frame) (c : String) : Frame :=
  if df.cols.contains c then df
  else { cols := df.cols ++ [c], rows := df.rows.map (fun r => r ++ [(c, Cell.na)]) }

/-- The float-price columns coerced at main.py lines 97-98. -/
def priceCols : List String := ["Open", "High", "Low", "Close", "Adj_Close"]

/-- transform_to_silver (main.py lines 84-109): ensures the required
columns, coerces Volume to int and the price columns to float with
missing values defaulted to 0, applies the adjusted-close repricing, and
fills remaining nulls with 0. -/
def transform_to_silver (df_bronze : Frame) : Frame :=
  let df_silver := df_bronze
  if df_silver.emptyB then df_silver else
  let df_silver := silverRequired.foldl addMissing df_silver
  let df_silver := df_silver.mapColCells "Volume"
    (fun c => Cell.int (FV.toIntTrunc (FV.fillnaZero (Cell.to_numeric c))) true)
  let df_silver := priceCols.foldl
    (fun d c => d.mapColCells c (fun x => Cell.num (FV.fillnaZero (Cell.to_numeric x)) true)) df_silver
  if df_silver.hasCol "Adj_Close" && df_silver.hasCol "Close"
      && !(df_silver.rows.all (fun r => (getCellD r "Close").isNull)) then
    let df_silver := df_silver.assign "Adj_Close_Ratio"
      (fun r => Cell.num (FV.div (Cell.toFV (getCellD r "Adj_Close")) (Cell.toFV (getCellD r "Close"))) true)
    let df_silver := df_silver.assign "Open"
      (fun r => Cell.num (FV.mul (Cell.toFV (getCellD r "Open")) (Cell.toFV (getCellD r "Adj_Close_Ratio"))) true)
    let df_silver := df_silver.assign "High"
      (fun r => Cell.num (FV.mul (Cell.toFV (getCellD r "High")) (Cell.toFV (getCellD r "Adj_Close_Ratio"))) true)
    let df_silver := df_silver.assign "Low"
      (fun r => Cell.num (FV.mul (Cell.toFV (getCellD r "Low")) (Cell.toFV (getCellD r "Adj_Close_Ratio"))) true)
    let df_silver := df_silver.assign "Close" (fun r => getCellD r "Adj_Close")
    let df_silver := df_silver.dropCols ["Adj_Close", "Adj_Close_Ratio"]
    df_silver.fillnaZero
  else
    df_silver.fillnaZero

/-! ## Aggregator: create_gold_table (main.py lines 112-127) -/

/-- Lexicographic sort-key space for one cell: a rank, a rational, a
string as its code-point list, and a year/month/day triple. -/
abbrev CellKey : Type := ℕ ×ₗ ℚ ×ₗ List ℕ ×ₗ ℕ ×ₗ ℕ ×ₗ ℕ

/-- Build a cell key. -/
def mkCellKey (r : ℕ) (q : ℚ) (s : List ℕ) (y m d : ℕ) : CellKey :=
  toLex (r, toLex (q, toLex (s, toLex (y, toLex (m, d)))))

/-- Sort key of one cell.  Ranks: numeric values sort before strings,
strings before timestamps, and null values (NaN / NaT / NA) always sort
last, as sort_values with the default na_position does.  pandas raises on
comparisons between cells of different kinds; the ranks totalise that
case, and the sortedness theorem carries typing hypotheses. -/
def cellKey : Cell → CellKey
  | Cell.num (FV.inf false) _ => mkCellKey 0 0 [] 0 0 0
  | Cell.num (FV.fin q) _ => mkCellKey 1 q [] 0 0 0
  | Cell.int n _ => mkCellKey 1 (n : ℚ) [] 0 0 0
  | Cell.num (FV.inf true) _ => mkCellKey 2 0 [] 0 0 0
  | Cell.str s => mkCellKey 3 0 (s.data.map Char.toNat) 0 0 0
  | Cell.date t => mkCellKey 4 0 [] t.y t.m t.d
  | Cell.na => mkCellKey 9 0 [] 0 0 0
  | Cell.num FV.nan _ => mkCellKey 9 0 [] 0 0 0

/-- Row order used by sort_values([Ticker, Date]) at main.py line 119. -/
def rowLe (r1 r2 : Row) : Prop :=
  (toLex (cellKey (getCellD r1 "Ticker"), cellKey (getCellD r1 "Date")))
    ≤ (toLex (cellKey (getCellD r2 "Ticker"), cellKey (getCellD r2 "Date")))

instance : DecidableRel rowLe := fun r1 r2 =>
  inferInstanceAs (Decidable ((toLex (cellKey (getCellD r1 "Ticker"), cellKey (getCellD r1 "Date")))
    ≤ (toLex (cellKey (getCellD r2 "Ticker"), cellKey (getCellD r2 "Date")))))

instance : IsTotal Row rowLe := ⟨fun _ _ => le_total _ _⟩

instance : IsTrans Row rowLe := ⟨fun _ _ _ h1 h2 => le_trans h1 h2⟩

/-- Name of the column added by the Aggregator. -/
def dcpCol : String := "Daily_Change_Pct"

/-- pct_change of the current Close against the previous Close of the
same group: NaN when there is no previous row, otherwise
current/previous - 1 (pandas computes pct_change as exactly this
division followed by the subtraction of 1). -/
def pctChange (prev : Option FV) (cur : FV) : FV :=
  match prev with
  | none => FV.nan
  | some p => FV.sub (FV.div cur p) (FV.fin 1)

/-- groupby(Ticker)[Close].pct_change() * 100 followed by fillna(0),
main.py lines 121-122, walking the rows in order.  seen maps each group
key to the Close value of the most recent row of that group.  Rows whose
Ticker is null belong to no group (groupby drops null keys), so their
pct_change is NaN and fillna turns it into 0. -/
def addDCP (seen : List (Cell × FV)) : List Row → List Row
  | [] => []
  | r :: rs =>
    let tk := getCellD r "Ticker"
    if tk.isNull then
      upsertCell r dcpCol (Cell.num (FV.fillnaZero FV.nan) true) :: addDCP seen rs
    else
      let c := Cell.toFV (getCellD r "Close")
      let raw := pctChange ((seen.find? (fun p => p.1 == tk)).map Prod.snd) c
      upsertCell r dcpCol (Cell.num (FV.fillnaZero (FV.mul raw (FV.fin 100))) true)
        :: addDCP ((tk, c) :: seen) rs

/-- The Gold projection columns, main.py line 124. -/
def colunas_finais : List String :=
  ["Ticker", "Date", "Open", "High", "Low", "Close", "Volume", "Daily_Change_Pct"]

/-- df[colunas_finais] on one row: the projected row, in final column
order. -/
def projFinal (r : Row) : Row := colunas_finais.map (fun c => (c, getCellD r c))

/-- create_gold_table (main.py lines 112-127): sorts by (Ticker, Date),
adds Daily_Change_Pct as the per-ticker percent change of Close with NaN
filled by 0, and projects to the final columns.  Projection of a missing
column raises KeyError in pandas; the model fills Cell.na there, and the
theorems about the Gold table carry column-presence hypotheses. -/
def create_gold_table (df_silver : Frame) : Frame :=
  let df_gold := df_silver
  if df_gold.emptyB then df_gold else
  let sortedRows := List.insertionSort rowLe df_gold.rows
  let annotated := addDCP [] sortedRows
  { cols := colunas_finais, rows := annotated.map projFinal }

/-! ## Publisher: dataframe_to_sheets_values and load_data_to_sheets
(main.py lines 63-81 and 130-151) -/

/-- Left-pad the decimal digits of n to width 2 with zeros: the %m / %d
fields of strftime. -/
def pad2 (n : ℕ) : List Char :=
  [Nat.digitChar (n / 10 % 10), Nat.digitChar (n % 10)]

/-- Left-pad the decimal digits of n to width 4 with zeros: the %Y field
of strftime for the years representable by a pandas Timestamp (1677 to
2262, always four digits). -/
def pad4 (n : ℕ) : List Char :=
  [Nat.digitChar (n / 1000 % 10), Nat.digitChar (n / 100 % 10),
   Nat.digitChar (n / 10 % 10), Nat.digitChar (n % 10)]

/-- strftime(%Y-%m-%d). -/
def strftimeYmd (t : Timestamp) : String :=
  String.mk (pad4 t.y ++ '-' :: pad2 t.m ++ '-' :: pad2 t.d)

/-- pd.to_datetime(errors=coerce) on one cell: a timestamp inside the
pandas nanosecond range is kept, anything else becomes NaT.  (The exact
range is 1677-09-21 to 2262-04-11; the model uses the year bounds 1678
to 2261, and the theorems stay inside them.  A parsable date string in
the source data is represented directly as a date cell.) -/
def to_datetime : Cell → Cell
  | Cell.date t => if 1678 ≤ t.y && t.y ≤ 2261 then Cell.date t else Cell.na
  | _ => Cell.na

/-- dataframe_to_sheets_values (main.py lines 63-81): formats the Date
column as ISO date strings, replaces null-like cells by the empty string,
converts numpy scalars to native scalars, and returns the header row of
column names followed by one row of cells per record. -/
def dataframe_to_sheets_values (df : Frame) : List (List Cell) :=
  let df2 := df
  let df2 := if df2.cols.contains "Date" then
      df2.mapColCells "Date" (fun c =>
        match to_datetime c with
        | Cell.date t => Cell.str (strftimeYmd t)
        | _ => Cell.na)
    else df2
  let df2 : Frame := { cols := df2.cols,
                       rows := df2.rows.map (fun r => r.map (fun p =>
                         (p.1, if p.2.isNull then Cell.str "" else p.2))) }
  let df2 : Frame := { cols := df2.cols,
                       rows := df2.rows.map (fun r => r.map (fun p => (p.1, p.2.to_builtin))) }
  (df2.cols.map Cell.str) :: df2.rows.map (fun r => df2.cols.map (fun c => getCellD r c))

/-- load_data_to_sheets (main.py lines 130-151): serializes the frame and
issues one bulk update call.  The remote service is an oracle from the
serialized grid to either an updated-cell count or an exception; on
failure the function logs and re-raises the same exception. -/
def load_data_to_sheets (update : List (List Cell) → Except String ℕ) (dataframe : Frame) :
    Except String ℕ :=
  match update (dataframe_to_sheets_values dataframe) with
  | Except.ok n => Except.ok n
  | Except.error e => Except.error e

/-! ## Extractor: extract_to_bronze (main.py lines 27-60) -/

/-- One record of the provider response after the stack(level=0) reshape
of main.py line 49: the per-(date, ticker) bar with the Adj Close column
already renamed to Adj_Close (line 50).  The wide multi-index response
carries exactly this information, one record per date and ticker. -/
structure StackedRow where
  date : Cell
  ticker : Cell
  opn : Cell
  hi : Cell
  lo : Cell
  close : Cell
  adjClose : Cell
  volume : Cell

/-- Bronze column order after reset_index and rename. -/
def bronzeCols : List String :=
  ["Date", "Ticker", "Open", "High", "Low", "Close", "Adj_Close", "Volume"]

/-- A stacked record as a Bronze row. -/
def stackedToRow (b : StackedRow) : Row :=
  [("Date", b.date), ("Ticker", b.ticker), ("Open", b.opn), ("High", b.hi),
   ("Low", b.lo), ("Close", b.close), ("Adj_Close", b.adjClose), ("Volume", b.volume)]

/-- extract_to_bronze (main.py lines 27-60).  The yf.download call is an
oracle: either an exception or the (stacked) response records.  Any
exception is caught and converted to an empty frame; an empty response
also yields an empty frame.  Otherwise the Date column is coerced with
to_datetime(errors=coerce) and rows whose Date failed to parse are
dropped. -/
def extract_to_bronze (download : Except String (List StackedRow)) : Frame :=
  match download with
  | Except.error _ => emptyFrame
  | Except.ok raw =>
    if raw.isEmpty then emptyFrame
    else
      let rows := raw.map stackedToRow
      let rows := rows.map (fun r => upsertCell r "Date" (to_datetime (getCellD r "Date")))
      let rows := rows.filter (fun r => !(getCellD r "Date").isNull)
      { cols := bronzeCols, rows := rows }

/-! ## Orchestrator: main (main.py lines 156-180) -/

/-- The success status string returned at main.py line 177. -/
def successMsg : String := "Pipeline executado com sucesso!"

/-- The error status string built at main.py line 180 (the Python code
interpolates the full traceback; the model keeps the exception text). -/
def erroMsg (e : String) : String := "Erro no pipeline: " ++ e

/-- main (main.py lines 156-180): runs the four stages, skips publication
when the Gold frame is empty, and wraps everything in a catch-all that
converts any exception into an error string.  The request payload and the
two service oracles are explicit arguments; the request is never read.
In the model the stage functions are total, so the only exception source
is the publication call.  (The source function is named main; Lean
reserves that name for the executable entry point, hence pipelineMain.) -/
def pipelineMain (request : String) (download : Except String (List StackedRow))
    (update : List (List Cell) → Except String ℕ) : String :=
  let df_bronze := extract_to_bronze download
  let df_silver := transform_to_silver df_bronze
  let df_gold := create_gold_table df_silver
  if !df_gold.emptyB then
    match load_data_to_sheets update df_gold with
    | Except.ok _ => successMsg
    | Except.error e => erroMsg e
  else successMsg

/-! ## Derived notions used by the specification claims -/

/-- The columns the required-column pass of the Cleaner would add to a
frame with the given columns, in insertion order (mirrors the foldl of
addMissing over cs). -/
def missingCols (cols : List String) : List String → List String
  | [] => []
  | c :: cs => if cols.contains c then missingCols cols cs
               else c :: missingCols (cols ++ [c]) cs

/-- The seven value-carrying Gold columns (everything except the derived
Daily_Change_Pct). -/
def silverCore : List String := ["Ticker", "Date", "Open", "High", "Low", "Close", "Volume"]

/-- The tuple of the seven value-carrying cells of a row. -/
def proj7 (r : Row) : List Cell := silverCore.map (fun c => getCellD r c)

/-- The string has the shape YYYY-MM-DD: ten characters, digits in the
date positions and dashes at indices 4 and 7. -/
def isIsoDate (s : String) : Bool :=
  match s.data with
  | [y1, y2, y3, y4, h1, m1, m2, h2, d1, d2] =>
    y1.isDigit && y2.isDigit && y3.isDigit && y4.isDigit && h1 = '-' &&
    m1.isDigit && m2.isDigit && h2 = '-' && d1.isDigit && d2.isDigit
  | _ => false

/-- The cell can go straight into the JSON body of the Sheets update
call: it is not null-like and is not a numpy array-backed scalar. -/
def Cell.isTransportSafe : Cell → Bool
  | Cell.na => false
  | Cell.num FV.nan _ => false
  | Cell.num _ b => !b
  | Cell.int _ b => !b
  | _ => true

/-- The Ticker string of a row (defaulting for non-string cells, which
the typed theorems exclude). -/
def tickerStr (r : Row) : String :=
  match getCellD r "Ticker" with
  | Cell.str s => s
  | _ => ""

/-- The Date timestamp of a row (defaulting for non-date cells, which the
typed theorems exclude). -/
def dateTs (r : Row) : Timestamp :=
  match getCellD r "Date" with
  | Cell.date t => t
  | _ => ⟨0, 0, 0⟩

/-- The (Ticker, Date) value of a row in the lexicographic order meant by
"sorted by (Ticker, Date) ascending": code-point order on the ticker
string, then calendar order on the date. -/
def goldKey (r : Row) : (List ℕ) ×ₗ (ℕ ×ₗ ℕ ×ₗ ℕ) :=
  toLex ((tickerStr r).data.map Char.toNat,
         toLex ((dateTs r).y, toLex ((dateTs r).m, (dateTs r).d)))

/-- Ascending (Ticker, Date) order on rows, the order the Gold table is
claimed to be sorted in. -/
def goldLe (r1 r2 : Row) : Prop := goldKey r1 ≤ goldKey r2

/-- The Close value last seen for ticker t in the running state of the
grouped pct_change walk. -/
def seenLookup (seen : List (Cell × FV)) (t : String) : Option FV :=
  (seen.find? (fun p => p.1 == Cell.str t)).map Prod.snd

/-- The per-ticker Daily_Change_Pct contract along a list of rows of one
ticker group: given the Close of the previous row of the group (none at
the start), every row carries pct_change * 100 with NaN filled by 0, and
the recursion threads each row's Close to its successor. -/
def DCPChain (prev : Option FV) : List Row → Prop
  | [] => True
  | r :: rs =>
      (getCellD r dcpCol
        = Cell.num (FV.fillnaZero
            (FV.mul (pctChange prev (Cell.toFV (getCellD r "Close"))) (FV.fin 100))) true)
      ∧ DCPChain (some (Cell.toFV (getCellD r "Close"))) rs

/-- The row-level effect of the required-column pass on one row of a
frame with the given columns. -/
def extendRow (cols : List String) (r : Row) : Row :=
  r ++ (missingCols cols silverRequired).map (fun c => (c, Cell.na))

/-- The row-level effect of the Volume coercion of main.py line 96. -/
def coerceVolume (r : Row) : Row :=
  upsertCell r "Volume"
    (Cell.int (FV.toIntTrunc (FV.fillnaZero (Cell.to_numeric (getCellD r "Volume")))) true)

/-- The row-level effect of one float-column coercion of main.py line 98. -/
def coercePrice (r : Row) (c : String) : Row :=
  upsertCell r c (Cell.num (FV.fillnaZero (Cell.to_numeric (getCellD r c))) true)

/-- The row-level effect of the whole numeric-coercion block (lines 96-98). -/
def coerceRow (r : Row) : Row :=
  priceCols.foldl coercePrice (coerceVolume r)

/-- The row-level effect of the price-adjustment block (lines 101-106):
ratio column, the three multiplications, the Close overwrite, and the
drop of Adj_Close and the ratio column. -/
def adjustRow (r : Row) : Row :=
  let r1 := upsertCell r "Adj_Close_Ratio"
      (Cell.num (FV.div (Cell.toFV (getCellD r "Adj_Close")) (Cell.toFV (getCellD r "Close"))) true)
  let r2 := upsertCell r1 "Open"
      (Cell.num (FV.mul (Cell.toFV (getCellD r1 "Open")) (Cell.toFV (getCellD r1 "Adj_Close_Ratio"))) true)
  let r3 := upsertCell r2 "High"
      (Cell.num (FV.mul (Cell.toFV (getCellD r2 "High")) (Cell.toFV (getCellD r2 "Adj_Close_Ratio"))) true)
  let r4 := upsertCell r3 "Low"
      (Cell.num (FV.mul (Cell.toFV (getCellD r3 "Low")) (Cell.toFV (getCellD r3 "Adj_Close_Ratio"))) true)
  let r5 := upsertCell r4 "Close" (getCellD r4 "Adj_Close")
  r5.filter (fun p => !(["Adj_Close", "Adj_Close_Ratio"] : List String).contains p.1)

/-- The row-level effect of the final fillna(0) (line 108). -/
def fillnaRow (r : Row) : Row := r.map (fun p => (p.1, p.2.fillna0))

/-- The complete row-level effect of the Cleaner on one row of a
non-empty frame (the adjustment branch is always taken on non-empty
frames: the guard of line 100 checks for nulls only after line 98 has
already filled them). -/
def silverFun (cols : List String) (r : Row) : Row :=
  fillnaRow (adjustRow (coerceRow (extendRow cols r)))

/-- The rows of the Gold table that carry a given ticker, in table
order (after the sort this is the chronological order of that ticker's
rows). -/
def goldTickerRows (df : Frame) (t : String) : List Row :=
  (create_gold_table df).rows.filter (fun r => getCellD r "Ticker" == Cell.str t)

/-! ## Concrete tables used by the counterexamples and witnesses -/

/-- 2024-01-02. -/
def ts1 : Timestamp := ⟨2024, 1, 2⟩

/-- 2024-01-03. -/
def ts2 : Timestamp := ⟨2024, 1, 3⟩

/-- A Bronze row builder. -/
def mkBronzeRow (t : Timestamp) (tk : String) (o h l : Cell) (c : Cell) (ac : Cell) (v : Cell) : Row :=
  [("Date", Cell.date t), ("Ticker", Cell.str tk), ("Open", o), ("High", h),
   ("Low", l), ("Close", c), ("Adj_Close", ac), ("Volume", v)]

/-- One-row table whose Close column is entirely null: Open 100, High
101, Low 99, Close null, Adj_Close 98, Volume 1000. -/
def allNullCloseFrame : Frame :=
  { cols := bronzeCols,
    rows := [mkBronzeRow ts1 "AAPL" (Cell.num (FV.fin 100) true) (Cell.num (FV.fin 101) true)
              (Cell.num (FV.fin 99) true) Cell.na (Cell.num (FV.fin 98) true) (Cell.int 1000 true)] }

/-- One-row table whose Close column is entirely zero (a real float 0),
with Adj_Close 98. -/
def allZeroCloseFrame : Frame :=
  { cols := bronzeCols,
    rows := [mkBronzeRow ts1 "AAPL" (Cell.num (FV.fin 100) true) (Cell.num (FV.fin 101) true)
              (Cell.num (FV.fin 99) true) (Cell.num (FV.fin 0) true)
              (Cell.num (FV.fin 98) true) (Cell.int 1000 true)] }

/-- A Silver row builder (no Adj_Close column). -/
def mkSilverRow (tk : String) (t : Timestamp) (cl : FV) : Row :=
  [("Ticker", Cell.str tk), ("Date", Cell.date t),
   ("Open", Cell.num (FV.fin 1) true), ("High", Cell.num (FV.fin 1) true),
   ("Low", Cell.num (FV.fin 1) true), ("Close", Cell.num cl true),
   ("Volume", Cell.int 5 true)]

/-- Silver columns (after the Cleaner, Adj_Close dropped). -/
def silverColsList : List String := ["Ticker", "Date", "Open", "High", "Low", "Close", "Volume"]

/-- Two rows of one ticker whose Close values are both zero: the second
pct_change is 0/0 - 1, a NaN. -/
def zeroCloseGoldInput : Frame :=
  { cols := silverColsList,
    rows := [mkSilverRow "A" ts1 (FV.fin 0), mkSilverRow "A" ts2 (FV.fin 0)] }

/-- Two rows of one ticker with Close 100 then 102 (given out of date
order, so the Aggregator must sort them). -/
def niceGoldInput : Frame :=
  { cols := silverColsList,
    rows := [mkSilverRow "AAPL" ts2 (FV.fin 102), mkSilverRow "AAPL" ts1 (FV.fin 100)] }

/-- One-row table with Adj_Close = Close = 0 and Open 100: the repricing
ratio is 0/0, a NaN, and the final fillna rewrites Open to 0. -/
def zeroAdjFrame : Frame :=
  { cols := bronzeCols,
    rows := [mkBronzeRow ts1 "AAPL" (Cell.num (FV.fin 100) true) (Cell.num (FV.fin 101) true)
              (Cell.num (FV.fin 99) true) (Cell.num (FV.fin 0) true)
              (Cell.num (FV.fin 0) true) (Cell.int 1000 true)] }

/-- One-row table with Adj_Close = Close = 98 (already adjusted, nonzero). -/
def adjustedFrame : Frame :=
  { cols := bronzeCols,
    rows := [mkBronzeRow ts1 "AAPL" (Cell.num (FV.fin 100) true) (Cell.num (FV.fin 101) true)
              (Cell.num (FV.fin 99) true) (Cell.num (FV.fin 98) true)
              (Cell.num (FV.fin 98) true) (Cell.int 1000 true)] }

/-- One-row, one-column table with a negative Volume value. -/
def negVolumeFrame : Frame :=
  { cols := ["Volume"], rows := [[("Volume", Cell.num (FV.fin (-5)) true)]] }

/-- One-row bronze table with Volume 1000 and a parsable schema. -/
def plainVolumeFrame : Frame :=
  { cols := bronzeCols,
    rows := [mkBronzeRow ts1 "AAPL" (Cell.num (FV.fin 100) true) (Cell.num (FV.fin 101) true)
              (Cell.num (FV.fin 99) true) (Cell.num (FV.fin 100) true)
              (Cell.num (FV.fin 100) true) (Cell.int 1000 true)] }

/-- A small Gold-like table with a date, a null and a numpy float, used
to exercise the serializer. -/
def sheetsFrame : Frame :=
  { cols := ["Ticker", "Date", "Close"],
    rows := [[("Ticker", Cell.na), ("Date", Cell.date ts1), ("Close", Cell.num (FV.fin 7) true)]] }

/-! # Theorems

Auxiliary lemmas about rows, then the claim theorems C1 to C10. -/

theorem getCell_append (r s : Row) (c : String) :
    getCell (r ++ s) c = match getCell r c with
      | some v => some v
      | none => getCell s c := by
  induction r with
  | nil => simp [getCell]
  | cons p r ih =>
    obtain ⟨k, w⟩ := p
    by_cases hk : k = c <;> simp [getCell, hk, ih]

theorem any_key_eq_isSome (r : Row) (c : String) :
    (r.any (fun p => p.1 = c)) = (getCell r c).isSome := by
  induction r with
  | nil => simp [getCell]
  | cons p r ih =>
    obtain ⟨k, w⟩ := p
    by_cases hk : k = c <;> simp [getCell, hk, ih]

theorem getCell_map_upsert (r : Row) (c : String) (v : Cell) :
    getCell (r.map (fun p => if p.1 = c then (c, v) else p)) c
      = (getCell r c).map (fun _ => v) := by
  induction r with
  | nil => simp [getCell]
  | cons p r ih =>
    obtain ⟨k, w⟩ := p
    simp only [List.map_cons]
    by_cases hk : k = c
    · subst hk
      rw [show (if (k, w).1 = k then (k, v) else (k, w)) = (k, v) from if_pos rfl]
      simp [getCell, ih]
    · rw [show (if (k, w).1 = c then (c, v) else (k, w)) = (k, w) from if_neg hk]
      simp [getCell, hk, ih]

theorem getCell_map_upsert_ne (r : Row) {c c' : String} (h : c' ≠ c) (v : Cell) :
    getCell (r.map (fun p => if p.1 = c then (c, v) else p)) c'
      = getCell r c' := by
  induction r with
  | nil => simp [getCell]
  | cons p r ih =>
    obtain ⟨k, w⟩ := p
    simp only [List.map_cons]
    by_cases hk : k = c
    · subst hk
      rw [show (if (k, w).1 = k then (k, v) else (k, w)) = (k, v) from if_pos rfl]
      simp [getCell, Ne.symm h, ih]
    · rw [show (if (k, w).1 = c then (c, v) else (k, w)) = (k, w) from if_neg hk]
      simp only [getCell, ih]

theorem getCell_upsert_self (r : Row) (c : String) (v : Cell) :
    getCell (upsertCell r c v) c = some v := by
  unfold upsertCell
  split
  · rename_i h
    rw [any_key_eq_isSome] at h
    rw [getCell_map_upsert]
    cases hg : getCell r c with
    | none => rw [hg] at h; simp at h
    | some w => simp
  · rename_i h
    rw [any_key_eq_isSome] at h
    rw [getCell_append]
    cases hg : getCell r c with
    | none => simp [getCell]
    | some w => rw [hg] at h; simp at h

theorem getCell_upsert_ne (r : Row) {c c' : String} (h : c' ≠ c) (v : Cell) :
    getCell (upsertCell r c v) c' = getCell r c' := by
  unfold upsertCell
  split
  · exact getCell_map_upsert_ne r h v
  · rw [getCell_append]
    cases hg : getCell r c' with
    | none => simp [getCell, Ne.symm h]
    | some w => simp

theorem getCellD_upsert_self (r : Row) (c : String) (v : Cell) :
    getCellD (upsertCell r c v) c = v := by
  unfold getCellD; rw [getCell_upsert_self]; rfl

theorem getCellD_upsert_ne (r : Row) {c c' : String} (h : c' ≠ c) (v : Cell) :
    getCellD (upsertCell r c v) c' = getCellD r c' := by
  unfold getCellD; rw [getCell_upsert_ne r h]

theorem getCell_filter_keep (r : Row) (g : String → Bool) {c : String} (h : g c = true) :
    getCell (r.filter (fun p => g p.1)) c = getCell r c := by
  induction r with
  | nil => rfl
  | cons p r ih =>
    obtain ⟨k, w⟩ := p
    rw [List.filter_cons]
    by_cases hk : k = c
    · subst hk
      rw [if_pos (show (fun p => g p.1) (k, w) = true from h)]
      simp [getCell, ih]
    · by_cases hkeep : g k = true
      · rw [if_pos (show (fun p => g p.1) (k, w) = true from hkeep)]
        simp [getCell, hk, ih]
      · rw [if_neg (show ¬ (fun p => g p.1) (k, w) = true from hkeep)]
        have hskip : getCell ((k, w) :: r) c = getCell r c := by simp [getCell, hk]
        rw [hskip]
        exact ih

theorem getCell_mapSnd (r : Row) (f : Cell → Cell) (c : String) :
    getCell (r.map (fun p => (p.1, f p.2))) c = (getCell r c).map f := by
  induction r with
  | nil => simp [getCell]
  | cons p r ih =>
    obtain ⟨k, w⟩ := p
    by_cases hk : k = c <;> simp [getCell, hk, ih]

theorem getCell_mapKeys (cs : List String) (g : String → Cell) (c : String) :
    getCell (cs.map (fun x => (x, g x))) c = if c ∈ cs then some (g c) else none := by
  induction cs with
  | nil => simp [getCell]
  | cons x cs ih =>
    by_cases hx : x = c
    · subst hx
      simp [getCell]
    · simp [getCell, hx, ih, Ne.symm hx]

theorem getCellD_projFinal {c : String} (h : c ∈ colunas_finais) (r : Row) :
    getCellD (projFinal r) c = getCellD r c := by
  unfold projFinal getCellD
  rw [getCell_mapKeys]
  simp [h]

theorem getCell_isSome_of_key_mem {r : Row} {c : String}
    (h : c ∈ r.map Prod.fst) : (getCell r c).isSome := by
  induction r with
  | nil => simp at h
  | cons p r ih =>
    obtain ⟨k, w⟩ := p
    by_cases hk : k = c
    · simp [getCell, hk]
    · simp only [List.map_cons, List.mem_cons] at h
      rcases h with h | h
      · exact absurd h.symm hk
      · simp [getCell, hk, ih h]

theorem contains_of_mem {l : List String} {c : String} (h : c ∈ l) : l.contains c = true := by
  simpa using h

theorem missingCols_cons (cols : List String) (c : String) (cs : List String) :
    missingCols cols (c :: cs)
      = if cols.contains c = true then missingCols cols cs
        else c :: missingCols (cols ++ [c]) cs := rfl

theorem foldl_addMissing_cols (cs : List String) (df : Frame) :
    (cs.foldl addMissing df).cols = df.cols ++ missingCols df.cols cs := by
  induction cs generalizing df with
  | nil => simp [missingCols]
  | cons c cs ih =>
    rw [List.foldl_cons]
    by_cases hc : df.cols.contains c = true
    · have ha : addMissing df c = df := by
        unfold addMissing
        rw [if_pos hc]
      rw [ha, ih, missingCols_cons, if_pos hc]
    · have ha : addMissing df c
          = { cols := df.cols ++ [c], rows := df.rows.map (fun r => r ++ [(c, Cell.na)]) } := by
        unfold addMissing
        rw [if_neg hc]
      rw [ha, ih, missingCols_cons, if_neg hc]
      simp

theorem foldl_addMissing_rows (cs : List String) (df : Frame) :
    (cs.foldl addMissing df).rows
      = df.rows.map (fun r => r ++ (missingCols df.cols cs).map (fun c => (c, Cell.na))) := by
  induction cs generalizing df with
  | nil => simp [missingCols]
  | cons c cs ih =>
    rw [List.foldl_cons]
    by_cases hc : df.cols.contains c = true
    · have ha : addMissing df c = df := by
        unfold addMissing
        rw [if_pos hc]
      rw [ha, ih, missingCols_cons, if_pos hc]
    · have ha : addMissing df c
          = { cols := df.cols ++ [c], rows := df.rows.map (fun r => r ++ [(c, Cell.na)]) } := by
        unfold addMissing
        rw [if_neg hc]
      rw [ha, ih, missingCols_cons, if_neg hc]
      simp [List.map_map, Function.comp_def]

theorem mem_missingCols_append {c : String} :
    ∀ (cs cols : List String), c ∈ cs → c ∈ cols ++ missingCols cols cs := by
  intro cs
  induction cs with
  | nil => intro cols h; simp at h
  | cons c' cs ih =>
    intro cols h
    unfold missingCols
    by_cases hc : cols.contains c' = true
    · rw [if_pos hc]
      rcases List.mem_cons.mp h with h | h
      · subst h
        have hm : c ∈ cols := by simpa using hc
        exact List.mem_append.mpr (Or.inl hm)
      · exact ih cols h
    · rw [if_neg hc]
      rcases List.mem_cons.mp h with h | h
      · subst h
        simp
      · have hmem := ih (cols ++ [c']) h
        simp only [List.mem_append, List.mem_singleton, List.mem_cons] at hmem ⊢
        tauto

theorem rows_assign (df : Frame) (c : String) (f : Row → Cell) :
    (df.assign c f).rows = df.rows.map (fun r => upsertCell r c (f r)) := rfl

theorem cols_assign_of_contains {df : Frame} {c : String} (h : df.cols.contains c = true)
    (f : Row → Cell) : (df.assign c f).cols = df.cols := by
  unfold Frame.assign
  rw [if_pos h]

theorem rows_foldl_mapColCells (g : Cell → Cell) (cs : List String) (df : Frame) :
    (cs.foldl (fun d c => d.mapColCells c g) df).rows
      = df.rows.map (fun r => cs.foldl (fun r c => upsertCell r c (g (getCellD r c))) r) := by
  induction cs generalizing df with
  | nil => simp
  | cons c cs ih =>
    simp only [List.foldl_cons]
    rw [ih]
    unfold Frame.mapColCells
    rw [rows_assign, List.map_map]
    rfl

theorem cols_foldl_mapColCells (g : Cell → Cell) (cs : List String) (df : Frame)
    (h : ∀ c ∈ cs, df.cols.contains c = true) :
    (cs.foldl (fun d c => d.mapColCells c g) df).cols = df.cols := by
  induction cs generalizing df with
  | nil => rfl
  | cons c cs ih =>
    rw [List.foldl_cons]
    have hc := h c (List.mem_cons_self _ _)
    have hcols : (df.mapColCells c g).cols = df.cols := cols_assign_of_contains hc _
    rw [ih]
    · exact hcols
    · intro c' hc'
      rw [hcols]
      exact h c' (List.mem_cons_of_mem _ hc')

theorem isNull_num_fillnaZero (x : FV) (b : Bool) :
    (Cell.num (FV.fillnaZero x) b).isNull = false := by
  cases x <;> rfl

theorem all_false_of_ne_nil {α : Type} {l : List α} {p : α → Bool} (h : l ≠ [])
    (hp : ∀ x ∈ l, p x = false) : l.all p = false := by
  cases l with
  | nil => exact absurd rfl h
  | cons a l =>
    have := hp a (List.mem_cons_self _ _)
    simp [List.all_cons, this]

theorem getCellD_close_coerceRow (r : Row) :
    getCellD (coerceRow r) "Close"
      = Cell.num (FV.fillnaZero (Cell.to_numeric
          (getCellD (coercePrice (coercePrice (coercePrice (coerceVolume r) "Open") "High") "Low")
            "Close"))) true := by
  unfold coerceRow priceCols
  simp only [List.foldl_cons, List.foldl_nil]
  unfold coercePrice
  rw [getCellD_upsert_ne _ (by decide), getCellD_upsert_self]

theorem contains_assign_of_contains {df : Frame} {c' : String}
    (h : df.cols.contains c' = true) (c : String) (f : Row → Cell) :
    (df.assign c f).cols.contains c' = true := by
  unfold Frame.assign
  split
  · exact h
  · have hm : c' ∈ df.cols := by simpa using h
    exact contains_of_mem (List.mem_append.mpr (Or.inl hm))

theorem rows_mapColCells (df : Frame) (c : String) (g : Cell → Cell) :
    (df.mapColCells c g).rows = df.rows.map (fun r => upsertCell r c (g (getCellD r c))) := rfl

theorem rows_dropCols (df : Frame) (cs : List String) :
    (df.dropCols cs).rows = df.rows.map (fun r => r.filter (fun p => !cs.contains p.1)) := rfl

theorem rows_fillnaZero (df : Frame) :
    (df.fillnaZero).rows = df.rows.map (fun r => r.map (fun p => (p.1, p.2.fillna0))) := rfl

theorem cols_hasCol_foldl_mapColCells (g : Cell → Cell) (cs : List String) (df : Frame)
    {c' : String} (h : df.cols.contains c' = true) :
    (cs.foldl (fun d c => d.mapColCells c g) df).cols.contains c' = true := by
  induction cs generalizing df with
  | nil => exact h
  | cons c cs ih =>
    simp only [List.foldl_cons]
    exact ih _ (contains_assign_of_contains h _ _)

set_option maxHeartbeats 1000000 in
theorem transform_rows (df : Frame) (hne : df.emptyB = false) :
    (transform_to_silver df).rows = df.rows.map (silverFun df.cols) := by
  have hne' : ¬ (df.emptyB = true) := by simp [hne]
  have hrows_ne : df.rows ≠ [] := by
    intro h
    unfold Frame.emptyB at hne
    rw [h] at hne
    simp at hne
  have hnull : ∀ (x : Row), (getCellD (coerceRow x) "Close").isNull = false := by
    intro x
    rw [getCellD_close_coerceRow]
    exact isNull_num_fillnaZero _ _
  unfold transform_to_silver
  rw [if_neg hne']
  dsimp only
  split
  · -- the adjustment branch: collapse everything into one map over the rows
    rw [rows_fillnaZero, rows_dropCols, rows_assign, rows_assign, rows_assign, rows_assign,
      rows_assign, rows_foldl_mapColCells, rows_mapColCells, foldl_addMissing_rows]
    simp only [List.map_map, Function.comp_def]
    simp only [silverFun, fillnaRow, adjustRow, coerceRow, coerceVolume, coercePrice,
      extendRow, priceCols, List.foldl_cons, List.foldl_nil]
    rfl
  · -- the guard of line 100 cannot be false on a non-empty frame
    rename_i hg
    exfalso
    apply hg
    simp only [Bool.and_eq_true]
    refine ⟨⟨?_, ?_⟩, ?_⟩
    · unfold Frame.hasCol
      apply cols_hasCol_foldl_mapColCells
      apply contains_assign_of_contains
      rw [foldl_addMissing_cols]
      exact contains_of_mem (mem_missingCols_append _ _ (by decide))
    · unfold Frame.hasCol
      apply cols_hasCol_foldl_mapColCells
      apply contains_assign_of_contains
      rw [foldl_addMissing_cols]
      exact contains_of_mem (mem_missingCols_append _ _ (by decide))
    · rw [Bool.not_eq_true']
      rw [rows_foldl_mapColCells, rows_mapColCells, foldl_addMissing_rows]
      simp only [List.map_map]
      apply all_false_of_ne_nil
      · intro h
        exact hrows_ne (by simpa using h)
      · intro x hx
        obtain ⟨r, hr, rfl⟩ := List.mem_map.mp hx
        exact hnull (extendRow df.cols r)

theorem getCellD_extendRow (cols : List String) (r : Row) (c : String) :
    getCellD (extendRow cols r) c = getCellD r c := by
  unfold extendRow getCellD
  rw [getCell_append]
  cases hg : getCell r c with
  | some v => rfl
  | none =>
    dsimp only
    rw [getCell_mapKeys]
    split <;> rfl

theorem getCellD_filter_keep (r : Row) (g : String → Bool) {c : String} (h : g c = true) :
    getCellD (r.filter (fun p => g p.1)) c = getCellD r c := by
  unfold getCellD
  rw [getCell_filter_keep _ _ h]

theorem getCellD_fillnaRow (r : Row) (c : String) :
    getCellD (fillnaRow r) c = ((getCell r c).map Cell.fillna0).getD Cell.na := by
  unfold fillnaRow getCellD
  rw [getCell_mapSnd]

theorem FV.div_self_fin {q : ℚ} (h : q ≠ 0) : FV.div (FV.fin q) (FV.fin q) = FV.fin 1 := by
  rw [show FV.div (FV.fin q) (FV.fin q)
      = if q = 0 then (if q = 0 then FV.nan else FV.inf (decide (0 < q))) else FV.fin (q / q)
      from rfl]
  rw [if_neg h, div_self h]

theorem FV.mul_fin_one (q : ℚ) : FV.mul (FV.fin q) (FV.fin 1) = FV.fin q := by
  rw [show FV.mul (FV.fin q) (FV.fin 1) = FV.fin (q * 1) from rfl, mul_one]

theorem getCellD_coercePrice_ne {c' c : String} (r : Row) (h : c' ≠ c) :
    getCellD (coercePrice r c) c' = getCellD r c' := by
  unfold coercePrice
  exact getCellD_upsert_ne _ h _

theorem getCellD_coercePrice_self (r : Row) (c : String) :
    getCellD (coercePrice r c) c
      = Cell.num (FV.fillnaZero (Cell.to_numeric (getCellD r c))) true := by
  unfold coercePrice
  rw [getCellD_upsert_self]

theorem getCellD_coerceVolume_ne {c : String} (r : Row) (h : c ≠ "Volume") :
    getCellD (coerceVolume r) c = getCellD r c := by
  unfold coerceVolume
  exact getCellD_upsert_ne _ h _

theorem getCellD_coerceRow_volume (r : Row) :
    getCellD (coerceRow r) "Volume"
      = Cell.int (FV.toIntTrunc (FV.fillnaZero (Cell.to_numeric (getCellD r "Volume")))) true := by
  show getCellD (coercePrice (coercePrice (coercePrice (coercePrice (coercePrice
      (coerceVolume r) "Open") "High") "Low") "Close") "Adj_Close") "Volume" = _
  rw [getCellD_coercePrice_ne _ (by decide), getCellD_coercePrice_ne _ (by decide),
    getCellD_coercePrice_ne _ (by decide), getCellD_coercePrice_ne _ (by decide),
    getCellD_coercePrice_ne _ (by decide)]
  unfold coerceVolume
  rw [getCellD_upsert_self]

theorem getCellD_coerceRow_open (r : Row) :
    getCellD (coerceRow r) "Open"
      = Cell.num (FV.fillnaZero (Cell.to_numeric (getCellD r "Open"))) true := by
  show getCellD (coercePrice (coercePrice (coercePrice (coercePrice (coercePrice
      (coerceVolume r) "Open") "High") "Low") "Close") "Adj_Close") "Open" = _
  rw [getCellD_coercePrice_ne _ (by decide), getCellD_coercePrice_ne _ (by decide),
    getCellD_coercePrice_ne _ (by decide), getCellD_coercePrice_ne _ (by decide),
    getCellD_coercePrice_self, getCellD_coerceVolume_ne _ (by decide)]

theorem getCellD_coerceRow_high (r : Row) :
    getCellD (coerceRow r) "High"
      = Cell.num (FV.fillnaZero (Cell.to_numeric (getCellD r "High"))) true := by
  show getCellD (coercePrice (coercePrice (coercePrice (coercePrice (coercePrice
      (coerceVolume r) "Open") "High") "Low") "Close") "Adj_Close") "High" = _
  rw [getCellD_coercePrice_ne _ (by decide), getCellD_coercePrice_ne _ (by decide),
    getCellD_coercePrice_ne _ (by decide), getCellD_coercePrice_self,
    getCellD_coercePrice_ne _ (by decide), getCellD_coerceVolume_ne _ (by decide)]

theorem getCellD_coerceRow_low (r : Row) :
    getCellD (coerceRow r) "Low"
      = Cell.num (FV.fillnaZero (Cell.to_numeric (getCellD r "Low"))) true := by
  show getCellD (coercePrice (coercePrice (coercePrice (coercePrice (coercePrice
      (coerceVolume r) "Open") "High") "Low") "Close") "Adj_Close") "Low" = _
  rw [getCellD_coercePrice_ne _ (by decide), getCellD_coercePrice_ne _ (by decide),
    getCellD_coercePrice_self, getCellD_coercePrice_ne _ (by decide),
    getCellD_coercePrice_ne _ (by decide), getCellD_coerceVolume_ne _ (by decide)]

theorem getCellD_coerceRow_close (r : Row) :
    getCellD (coerceRow r) "Close"
      = Cell.num (FV.fillnaZero (Cell.to_numeric (getCellD r "Close"))) true := by
  show getCellD (coercePrice (coercePrice (coercePrice (coercePrice (coercePrice
      (coerceVolume r) "Open") "High") "Low") "Close") "Adj_Close") "Close" = _
  rw [getCellD_coercePrice_ne _ (by decide), getCellD_coercePrice_self,
    getCellD_coercePrice_ne _ (by decide), getCellD_coercePrice_ne _ (by decide),
    getCellD_coercePrice_ne _ (by decide), getCellD_coerceVolume_ne _ (by decide)]

theorem getCellD_coerceRow_adjClose (r : Row) :
    getCellD (coerceRow r) "Adj_Close"
      = Cell.num (FV.fillnaZero (Cell.to_numeric (getCellD r "Adj_Close"))) true := by
  show getCellD (coercePrice (coercePrice (coercePrice (coercePrice (coercePrice
      (coerceVolume r) "Open") "High") "Low") "Close") "Adj_Close") "Adj_Close" = _
  rw [getCellD_coercePrice_self, getCellD_coercePrice_ne _ (by decide),
    getCellD_coercePrice_ne _ (by decide), getCellD_coercePrice_ne _ (by decide),
    getCellD_coercePrice_ne _ (by decide), getCellD_coerceVolume_ne _ (by decide)]

theorem getCellD_adjustRow_volume (r : Row) :
    getCellD (adjustRow r) "Volume" = getCellD r "Volume" := by
  unfold adjustRow
  rw [getCellD_filter_keep _ (fun s => !(["Adj_Close", "Adj_Close_Ratio"] : List String).contains s)
      (by decide)]
  rw [getCellD_upsert_ne _ (by decide), getCellD_upsert_ne _ (by decide),
    getCellD_upsert_ne _ (by decide), getCellD_upsert_ne _ (by decide),
    getCellD_upsert_ne _ (by decide)]

theorem getCell_of_getCellD_ne_na {r : Row} {c : String} {v : Cell}
    (h : getCellD r c = v) (hv : v ≠ Cell.na) : getCell r c = some v := by
  unfold getCellD at h
  cases hg : getCell r c with
  | none =>
    rw [hg] at h
    simp only [Option.getD_none] at h
    exact absurd h.symm hv
  | some w =>
    rw [hg] at h
    rw [show w = v from h]

theorem adjustRow_prices (r : Row) (qo qh ql qc : ℚ)
    (hO : getCellD r "Open" = Cell.num (FV.fin qo) true)
    (hH : getCellD r "High" = Cell.num (FV.fin qh) true)
    (hL : getCellD r "Low" = Cell.num (FV.fin ql) true)
    (hC : getCellD r "Close" = Cell.num (FV.fin qc) true)
    (hA : getCellD r "Adj_Close" = Cell.num (FV.fin qc) true)
    (hqc : qc ≠ 0) :
    getCellD (adjustRow r) "Open" = Cell.num (FV.fin qo) true ∧
    getCellD (adjustRow r) "High" = Cell.num (FV.fin qh) true ∧
    getCellD (adjustRow r) "Low" = Cell.num (FV.fin ql) true ∧
    getCellD (adjustRow r) "Close" = Cell.num (FV.fin qc) true := by
  let r1 : Row := upsertCell r "Adj_Close_Ratio"
      (Cell.num (FV.div (Cell.toFV (getCellD r "Adj_Close")) (Cell.toFV (getCellD r "Close"))) true)
  let r2 : Row := upsertCell r1 "Open"
      (Cell.num (FV.mul (Cell.toFV (getCellD r1 "Open")) (Cell.toFV (getCellD r1 "Adj_Close_Ratio"))) true)
  let r3 : Row := upsertCell r2 "High"
      (Cell.num (FV.mul (Cell.toFV (getCellD r2 "High")) (Cell.toFV (getCellD r2 "Adj_Close_Ratio"))) true)
  let r4 : Row := upsertCell r3 "Low"
      (Cell.num (FV.mul (Cell.toFV (getCellD r3 "Low")) (Cell.toFV (getCellD r3 "Adj_Close_Ratio"))) true)
  let r5 : Row := upsertCell r4 "Close" (getCellD r4 "Adj_Close")
  have hadj : adjustRow r
      = r5.filter (fun p => !(["Adj_Close", "Adj_Close_Ratio"] : List String).contains p.1) := rfl
  have h1ratio : getCellD r1 "Adj_Close_Ratio" = Cell.num (FV.fin 1) true := by
    show getCellD (upsertCell r "Adj_Close_Ratio" _) "Adj_Close_Ratio" = _
    rw [getCellD_upsert_self, hA, hC]
    show Cell.num (FV.div (FV.fin qc) (FV.fin qc)) true = _
    rw [FV.div_self_fin hqc]
  have h1O : getCellD r1 "Open" = Cell.num (FV.fin qo) true := by
    show getCellD (upsertCell r "Adj_Close_Ratio" _) "Open" = _
    rw [getCellD_upsert_ne _ (by decide), hO]
  have h1H : getCellD r1 "High" = Cell.num (FV.fin qh) true := by
    show getCellD (upsertCell r "Adj_Close_Ratio" _) "High" = _
    rw [getCellD_upsert_ne _ (by decide), hH]
  have h1L : getCellD r1 "Low" = Cell.num (FV.fin ql) true := by
    show getCellD (upsertCell r "Adj_Close_Ratio" _) "Low" = _
    rw [getCellD_upsert_ne _ (by decide), hL]
  have h1A : getCellD r1 "Adj_Close" = Cell.num (FV.fin qc) true := by
    show getCellD (upsertCell r "Adj_Close_Ratio" _) "Adj_Close" = _
    rw [getCellD_upsert_ne _ (by decide), hA]
  have h2O : getCellD r2 "Open" = Cell.num (FV.fin qo) true := by
    show getCellD (upsertCell r1 "Open" _) "Open" = _
    rw [getCellD_upsert_self, h1O, h1ratio]
    show Cell.num (FV.mul (FV.fin qo) (FV.fin 1)) true = _
    rw [FV.mul_fin_one]
  have h2H : getCellD r2 "High" = Cell.num (FV.fin qh) true := by
    show getCellD (upsertCell r1 "Open" _) "High" = _
    rw [getCellD_upsert_ne _ (by decide)]
    exact h1H
  have h2L : getCellD r2 "Low" = Cell.num (FV.fin ql) true := by
    show getCellD (upsertCell r1 "Open" _) "Low" = _
    rw [getCellD_upsert_ne _ (by decide)]
    exact h1L
  have h2A : getCellD r2 "Adj_Close" = Cell.num (FV.fin qc) true := by
    show getCellD (upsertCell r1 "Open" _) "Adj_Close" = _
    rw [getCellD_upsert_ne _ (by decide)]
    exact h1A
  have h2ratio : getCellD r2 "Adj_Close_Ratio" = Cell.num (FV.fin 1) true := by
    show getCellD (upsertCell r1 "Open" _) "Adj_Close_Ratio" = _
    rw [getCellD_upsert_ne _ (by decide)]
    exact h1ratio
  have h3O : getCellD r3 "Open" = Cell.num (FV.fin qo) true := by
    show getCellD (upsertCell r2 "High" _) "Open" = _
    rw [getCellD_upsert_ne _ (by decide)]
    exact h2O
  have h3H : getCellD r3 "High" = Cell.num (FV.fin qh) true := by
    show getCellD (upsertCell r2 "High" _) "High" = _
    rw [getCellD_upsert_self, h2H, h2ratio]
    show Cell.num (FV.mul (FV.fin qh) (FV.fin 1)) true = _
    rw [FV.mul_fin_one]
  have h3L : getCellD r3 "Low" = Cell.num (FV.fin ql) true := by
    show getCellD (upsertCell r2 "High" _) "Low" = _
    rw [getCellD_upsert_ne _ (by decide)]
    exact h2L
  have h3A : getCellD r3 "Adj_Close" = Cell.num (FV.fin qc) true := by
    show getCellD (upsertCell r2 "High" _) "Adj_Close" = _
    rw [getCellD_upsert_ne _ (by decide)]
    exact h2A
  have h3ratio : getCellD r3 "Adj_Close_Ratio" = Cell.num (FV.fin 1) true := by
    show getCellD (upsertCell r2 "High" _) "Adj_Close_Ratio" = _
    rw [getCellD_upsert_ne _ (by decide)]
    exact h2ratio
  have h4O : getCellD r4 "Open" = Cell.num (FV.fin qo) true := by
    show getCellD (upsertCell r3 "Low" _) "Open" = _
    rw [getCellD_upsert_ne _ (by decide)]
    exact h3O
  have h4H : getCellD r4 "High" = Cell.num (FV.fin qh) true := by
    show getCellD (upsertCell r3 "Low" _) "High" = _
    rw [getCellD_upsert_ne _ (by decide)]
    exact h3H
  have h4L : getCellD r4 "Low" = Cell.num (FV.fin ql) true := by
    show getCellD (upsertCell r3 "Low" _) "Low" = _
    rw [getCellD_upsert_self, h3L, h3ratio]
    show Cell.num (FV.mul (FV.fin ql) (FV.fin 1)) true = _
    rw [FV.mul_fin_one]
  have h4A : getCellD r4 "Adj_Close" = Cell.num (FV.fin qc) true := by
    show getCellD (upsertCell r3 "Low" _) "Adj_Close" = _
    rw [getCellD_upsert_ne _ (by decide)]
    exact h3A
  have h5O : getCellD r5 "Open" = Cell.num (FV.fin qo) true := by
    show getCellD (upsertCell r4 "Close" _) "Open" = _
    rw [getCellD_upsert_ne _ (by decide)]
    exact h4O
  have h5H : getCellD r5 "High" = Cell.num (FV.fin qh) true := by
    show getCellD (upsertCell r4 "Close" _) "High" = _
    rw [getCellD_upsert_ne _ (by decide)]
    exact h4H
  have h5L : getCellD r5 "Low" = Cell.num (FV.fin ql) true := by
    show getCellD (upsertCell r4 "Close" _) "Low" = _
    rw [getCellD_upsert_ne _ (by decide)]
    exact h4L
  have h5C : getCellD r5 "Close" = Cell.num (FV.fin qc) true := by
    show getCellD (upsertCell r4 "Close" _) "Close" = _
    rw [getCellD_upsert_self]
    exact h4A
  refine ⟨?_, ?_, ?_, ?_⟩ <;> rw [hadj]
  · rw [getCellD_filter_keep _ (fun s => !(["Adj_Close", "Adj_Close_Ratio"] : List String).contains s)
        (by decide)]
    exact h5O
  · rw [getCellD_filter_keep _ (fun s => !(["Adj_Close", "Adj_Close_Ratio"] : List String).contains s)
        (by decide)]
    exact h5H
  · rw [getCellD_filter_keep _ (fun s => !(["Adj_Close", "Adj_Close_Ratio"] : List String).contains s)
        (by decide)]
    exact h5L
  · rw [getCellD_filter_keep _ (fun s => !(["Adj_Close", "Adj_Close_Ratio"] : List String).contains s)
        (by decide)]
    exact h5C

theorem getD_map_lt {α β : Type} (f : α → β) (l : List α) {i : ℕ} (h : i < l.length)
    (d : β) (d' : α) : (l.map f).getD i d = f (l.getD i d') := by
  rw [List.getD_eq_getElem?_getD, List.getD_eq_getElem?_getD, List.getElem?_map,
    List.getElem?_eq_getElem h]
  simp

theorem getD_mem {α : Type} {l : List α} {i : ℕ} (d : α) (h : i < l.length) :
    l.getD i d ∈ l := by
  rw [List.getD_eq_getElem?_getD, List.getElem?_eq_getElem h]
  exact List.getElem_mem h

theorem silverFun_volume (cols : List String) (r : Row) :
    getCellD (silverFun cols r) "Volume"
      = Cell.int (FV.toIntTrunc (FV.fillnaZero (Cell.to_numeric (getCellD r "Volume")))) true := by
  have h1 : getCellD (adjustRow (coerceRow (extendRow cols r))) "Volume"
      = Cell.int (FV.toIntTrunc (FV.fillnaZero (Cell.to_numeric (getCellD r "Volume")))) true := by
    rw [getCellD_adjustRow_volume, getCellD_coerceRow_volume, getCellD_extendRow]
  show getCellD (fillnaRow (adjustRow (coerceRow (extendRow cols r)))) "Volume" = _
  rw [getCellD_fillnaRow, getCell_of_getCellD_ne_na h1 (by intro he; cases he)]
  rfl

theorem silverFun_prices (cols : List String) (r : Row) (qo qh ql qc : ℚ)
    (hO : getCellD r "Open" = Cell.num (FV.fin qo) true)
    (hH : getCellD r "High" = Cell.num (FV.fin qh) true)
    (hL : getCellD r "Low" = Cell.num (FV.fin ql) true)
    (hC : getCellD r "Close" = Cell.num (FV.fin qc) true)
    (hA : getCellD r "Adj_Close" = Cell.num (FV.fin qc) true)
    (hqc : qc ≠ 0) :
    getCellD (silverFun cols r) "Open" = Cell.num (FV.fin qo) true ∧
    getCellD (silverFun cols r) "High" = Cell.num (FV.fin qh) true ∧
    getCellD (silverFun cols r) "Low" = Cell.num (FV.fin ql) true ∧
    getCellD (silverFun cols r) "Close" = Cell.num (FV.fin qc) true := by
  have cO : getCellD (coerceRow (extendRow cols r)) "Open" = Cell.num (FV.fin qo) true := by
    rw [getCellD_coerceRow_open, getCellD_extendRow, hO]
    rfl
  have cH : getCellD (coerceRow (extendRow cols r)) "High" = Cell.num (FV.fin qh) true := by
    rw [getCellD_coerceRow_high, getCellD_extendRow, hH]
    rfl
  have cL : getCellD (coerceRow (extendRow cols r)) "Low" = Cell.num (FV.fin ql) true := by
    rw [getCellD_coerceRow_low, getCellD_extendRow, hL]
    rfl
  have cC : getCellD (coerceRow (extendRow cols r)) "Close" = Cell.num (FV.fin qc) true := by
    rw [getCellD_coerceRow_close, getCellD_extendRow, hC]
    rfl
  have cA : getCellD (coerceRow (extendRow cols r)) "Adj_Close" = Cell.num (FV.fin qc) true := by
    rw [getCellD_coerceRow_adjClose, getCellD_extendRow, hA]
    rfl
  obtain ⟨aO, aH, aL, aC⟩ := adjustRow_prices _ qo qh ql qc cO cH cL cC cA hqc
  refine ⟨?_, ?_, ?_, ?_⟩
  · show getCellD (fillnaRow (adjustRow (coerceRow (extendRow cols r)))) "Open" = _
    rw [getCellD_fillnaRow, getCell_of_getCellD_ne_na aO (by intro he; cases he)]
    rfl
  · show getCellD (fillnaRow (adjustRow (coerceRow (extendRow cols r)))) "High" = _
    rw [getCellD_fillnaRow, getCell_of_getCellD_ne_na aH (by intro he; cases he)]
    rfl
  · show getCellD (fillnaRow (adjustRow (coerceRow (extendRow cols r)))) "Low" = _
    rw [getCellD_fillnaRow, getCell_of_getCellD_ne_na aL (by intro he; cases he)]
    rfl
  · show getCellD (fillnaRow (adjustRow (coerceRow (extendRow cols r)))) "Close" = _
    rw [getCellD_fillnaRow, getCell_of_getCellD_ne_na aC (by intro he; cases he)]
    rfl

theorem transform_empty (df : Frame) (h : df.emptyB = true) : transform_to_silver df = df := by
  unfold transform_to_silver
  rw [if_pos h]

/-- C1: the specification says that when the Close column is entirely
null (or entirely zero) the Cleaner skips the price adjustment and leaves
Open/High/Low/Close unchanged.  The code does not: the guard of main.py
line 100 runs after fillna(0) of line 98 has replaced every null Close
with 0, so the guard is dead and the adjustment always runs, dividing
Adj_Close by zero.  On a one-row table with Close null (input Open 100,
Adj_Close 98) the output Open is +infinity and the output Close is 98;
the same happens when Close is a real zero.  Adj_Close is dropped and no
exception is raised, as the claim says. -/
theorem c1_adjustment_runs_on_all_null_close :
    getCellD (allNullCloseFrame.rows.getD 0 []) "Close" = Cell.na ∧
    getCellD (allNullCloseFrame.rows.getD 0 []) "Open" = Cell.num (FV.fin 100) true ∧
    getCellD ((transform_to_silver allNullCloseFrame).rows.getD 0 []) "Open"
      = Cell.num (FV.inf true) true ∧
    getCellD ((transform_to_silver allNullCloseFrame).rows.getD 0 []) "Close"
      = Cell.num (FV.fin 98) true ∧
    (transform_to_silver allNullCloseFrame).hasCol "Adj_Close" = false ∧
    getCellD (allZeroCloseFrame.rows.getD 0 []) "Close" = Cell.num (FV.fin 0) true ∧
    getCellD ((transform_to_silver allZeroCloseFrame).rows.getD 0 []) "Open"
      = Cell.num (FV.inf true) true ∧
    getCellD ((transform_to_silver allZeroCloseFrame).rows.getD 0 []) "Close"
      = Cell.num (FV.fin 98) true := by decide

/-- C3 counterexample: on a one-row table with Adj_Close = Close = 0 and
Open 100 the per-row ratio is 0/0 (NaN, not 1), Open becomes NaN and the
final fillna(0) turns it into 0, so the adjustment does not leave the
prices unchanged. -/
theorem c3_counterexample :
    getCellD (zeroAdjFrame.rows.getD 0 []) "Adj_Close"
      = getCellD (zeroAdjFrame.rows.getD 0 []) "Close" ∧
    getCellD (zeroAdjFrame.rows.getD 0 []) "Open" = Cell.num (FV.fin 100) true ∧
    getCellD ((transform_to_silver zeroAdjFrame).rows.getD 0 []) "Open"
      = Cell.num (FV.fin 0) true := by decide

/-- C3 (amended): the Cleaner's repricing is idempotent on already
adjusted data with nonzero prices: for every table whose rows carry
finite float Open/High/Low values and Adj_Close equal to Close and
nonzero, the adjustment step leaves Open, High, Low and Close unchanged
(the per-row ratio is 1). -/
theorem c3_repricing_idempotent (df : Frame)
    (hadj : ∀ r ∈ df.rows, ∃ qo qh ql qc : ℚ,
        getCellD r "Open" = Cell.num (FV.fin qo) true ∧
        getCellD r "High" = Cell.num (FV.fin qh) true ∧
        getCellD r "Low" = Cell.num (FV.fin ql) true ∧
        getCellD r "Close" = Cell.num (FV.fin qc) true ∧
        getCellD r "Adj_Close" = Cell.num (FV.fin qc) true ∧ qc ≠ 0) :
    ∀ i, i < df.rows.length →
      getCellD ((transform_to_silver df).rows.getD i []) "Open"
        = getCellD (df.rows.getD i []) "Open" ∧
      getCellD ((transform_to_silver df).rows.getD i []) "High"
        = getCellD (df.rows.getD i []) "High" ∧
      getCellD ((transform_to_silver df).rows.getD i []) "Low"
        = getCellD (df.rows.getD i []) "Low" ∧
      getCellD ((transform_to_silver df).rows.getD i []) "Close"
        = getCellD (df.rows.getD i []) "Close" := by
  intro i hi
  by_cases he : df.emptyB = true
  · rw [transform_empty df he]
    exact ⟨rfl, rfl, rfl, rfl⟩
  · have hne : df.emptyB = false := by
      cases hb : df.emptyB
      · rfl
      · exact absurd hb he
    have hrows := transform_rows df hne
    have hmem : df.rows.getD i [] ∈ df.rows := getD_mem [] hi
    obtain ⟨qo, qh, ql, qc, hO, hH, hL, hC, hA, hqc⟩ := hadj _ hmem
    have hout : (transform_to_silver df).rows.getD i [] = silverFun df.cols (df.rows.getD i []) := by
      rw [hrows]
      exact getD_map_lt _ _ hi _ _
    obtain ⟨sO, sH, sL, sC⟩ := silverFun_prices df.cols _ qo qh ql qc hO hH hL hC hA hqc
    rw [hout, sO, sH, sL, sC, hO, hH, hL, hC]
    exact ⟨rfl, rfl, rfl, rfl⟩

/-- C3 witness: the amended idempotence theorem applied to a concrete
one-row already-adjusted table (Adj_Close = Close = 98, Open 100). -/
theorem c3_witness :
    getCellD ((transform_to_silver adjustedFrame).rows.getD 0 []) "Open"
      = getCellD (adjustedFrame.rows.getD 0 []) "Open" ∧
    getCellD ((transform_to_silver adjustedFrame).rows.getD 0 []) "High"
      = getCellD (adjustedFrame.rows.getD 0 []) "High" ∧
    getCellD ((transform_to_silver adjustedFrame).rows.getD 0 []) "Low"
      = getCellD (adjustedFrame.rows.getD 0 []) "Low" ∧
    getCellD ((transform_to_silver adjustedFrame).rows.getD 0 []) "Close"
      = getCellD (adjustedFrame.rows.getD 0 []) "Close" := by
  refine c3_repricing_idempotent adjustedFrame ?_ 0 (by decide)
  intro r hr
  have hr' : r = adjustedFrame.rows.getD 0 [] := by
    simp only [adjustedFrame, mkBronzeRow] at hr ⊢
    simpa using hr
  subst hr'
  exact ⟨100, 101, 99, 98, by decide, by decide, by decide, by decide, by decide, by decide⟩

/-- C5 counterexample: a Volume of -5 is parsable and is kept as the
integer -5 by the Cleaner, so the output Volume column is not restricted
to non-negative integers. -/
theorem c5_counterexample :
    getCellD ((transform_to_silver negVolumeFrame).rows.getD 0 []) "Volume"
      = Cell.int (-5) true ∧ ¬ (0 : ℤ) ≤ -5 := by decide

/-- C5 (amended): for every non-empty input table whose Volume values
coerce to finite numbers or missing (pandas raises on an infinite Volume
at astype(int)), the Cleaner's output Volume column contains only
integer cells, a missing or unparsable Volume yields 0, and the value is
non-negative whenever the coerced input is non-negative.  Each output
Volume is the truncation toward zero of the coerced input with missing
values defaulted to 0. -/
theorem c5_volume_integer (df : Frame) (hne : df.emptyB = false)
    (hfin : ∀ r ∈ df.rows,
      (FV.fillnaZero (Cell.to_numeric (getCellD r "Volume"))).isFin = true) :
    ∀ i, i < df.rows.length →
      (getCellD ((transform_to_silver df).rows.getD i []) "Volume"
          = Cell.int (FV.toIntTrunc (FV.fillnaZero
              (Cell.to_numeric (getCellD (df.rows.getD i []) "Volume")))) true)
      ∧ (Cell.to_numeric (getCellD (df.rows.getD i []) "Volume") = FV.nan →
          getCellD ((transform_to_silver df).rows.getD i []) "Volume" = Cell.int 0 true)
      ∧ (∀ q : ℚ,
          FV.fillnaZero (Cell.to_numeric (getCellD (df.rows.getD i []) "Volume")) = FV.fin q →
          0 ≤ q →
          ∃ n : ℤ, getCellD ((transform_to_silver df).rows.getD i []) "Volume"
              = Cell.int n true ∧ 0 ≤ n) := by
  intro i hi
  have hrows := transform_rows df hne
  have hout : (transform_to_silver df).rows.getD i [] = silverFun df.cols (df.rows.getD i []) := by
    rw [hrows]
    exact getD_map_lt _ _ hi _ _
  have hmain := silverFun_volume df.cols (df.rows.getD i [])
  rw [hout]
  refine ⟨hmain, ?_, ?_⟩
  · intro hnan
    rw [hmain, hnan]
    decide
  · intro q hq hq0
    refine ⟨FV.toIntTrunc (FV.fin q), ?_, ?_⟩
    · rw [hmain, hq]
    · show 0 ≤ FV.ratTruncZ q
      unfold FV.ratTruncZ
      exact Int.tdiv_nonneg (Rat.num_nonneg.mpr hq0) (by positivity)

/-- C5 witness: the amended Volume theorem applied to a concrete one-row
table with Volume 1000; the output cell is the integer 1000. -/
theorem c5_witness :
    getCellD ((transform_to_silver plainVolumeFrame).rows.getD 0 []) "Volume"
      = Cell.int 1000 true := by
  have h := (c5_volume_integer plainVolumeFrame (by decide) (by decide)) 0 (by decide)
  rw [h.1]
  decide

/-- C4: when extraction yields no data, either because the provider
returned an empty result or because the network call raised, the
Extractor returns an empty table without propagating the exception, the
Cleaner and the Aggregator pass the empty table through unchanged, and
the orchestrator's result does not depend on the publication service
(publication is skipped) and is the success status string. -/
theorem c4_empty_extraction_short_circuit (e req : String)
    (update update2 : List (List Cell) → Except String ℕ) :
    extract_to_bronze (Except.error e) = emptyFrame ∧
    extract_to_bronze (Except.ok []) = emptyFrame ∧
    transform_to_silver emptyFrame = emptyFrame ∧
    create_gold_table emptyFrame = emptyFrame ∧
    pipelineMain req (Except.error e) update = pipelineMain req (Except.error e) update2 ∧
    pipelineMain req (Except.error e) update = successMsg ∧
    pipelineMain req (Except.ok []) update = successMsg :=
  ⟨rfl, rfl, rfl, rfl, rfl, rfl, rfl⟩

/-- C8: if the remote spreadsheet update call fails with an exception,
the Publisher re-raises that same exception to its caller; extraction,
the only other stage that touches a service, converts every exception to
an empty table instead, so publication is the only stage that propagates
a fatal error (the Cleaner and Aggregator are total functions of their
input in the model). -/
theorem c8_publish_reraises :
    (∀ (update : List (List Cell) → Except String ℕ) (df : Frame) (e : String),
        update (dataframe_to_sheets_values df) = Except.error e →
        load_data_to_sheets update df = Except.error e) ∧
    (∀ e : String, extract_to_bronze (Except.error e) = emptyFrame) := by
  constructor
  · intro update df e h
    unfold load_data_to_sheets
    rw [h]
  · intro e
    rfl

/-- C8 witness: a publication service that always fails with the message
boom makes load_data_to_sheets fail with exactly that message, while a
failing download still yields the empty frame. -/
theorem c8_witness :
    load_data_to_sheets (fun _ => Except.error "boom") emptyFrame = Except.error "boom" ∧
    extract_to_bronze (Except.error "boom") = emptyFrame :=
  ⟨c8_publish_reraises.1 _ emptyFrame "boom" rfl, c8_publish_reraises.2 "boom"⟩

/-- C9: the entry point always returns a plain status string, converting
a publication failure (the only exception source in the model) into a
textual error response, and the returned string does not depend on the
request payload: two invocations with different requests but the same
service behaviour return the same string. -/
theorem c9_entry_point_total_payload_blind :
    ∀ (req1 req2 : String) (download : Except String (List StackedRow))
      (update : List (List Cell) → Except String ℕ),
      pipelineMain req1 download update = pipelineMain req2 download update ∧
      (pipelineMain req1 download update = successMsg ∨
        ∃ e, update (dataframe_to_sheets_values
              (create_gold_table (transform_to_silver (extract_to_bronze download))))
            = Except.error e ∧ pipelineMain req1 download update = erroMsg e) := by
  intro req1 req2 download update
  constructor
  · rfl
  · unfold pipelineMain
    dsimp only
    split
    · cases hu : load_data_to_sheets update
          (create_gold_table (transform_to_silver (extract_to_bronze download))) with
      | ok n =>
        left
        rfl
      | error e =>
        right
        refine ⟨e, ?_, ?_⟩
        · unfold load_data_to_sheets at hu
          cases hu2 : update (dataframe_to_sheets_values
              (create_gold_table (transform_to_silver (extract_to_bronze download)))) with
          | ok n => rw [hu2] at hu; cases hu
          | error e' => rw [hu2] at hu; exact hu
        · rfl
    · left
      rfl

theorem gold_empty (df : Frame) (h : df.emptyB = true) : create_gold_table df = df := by
  unfold create_gold_table
  rw [if_pos h]

theorem gold_rows (df : Frame) (h : df.emptyB = false) :
    (create_gold_table df).rows
      = (addDCP [] (List.insertionSort rowLe df.rows)).map projFinal := by
  unfold create_gold_table
  rw [if_neg (by simp [h])]

theorem gold_cols (df : Frame) (h : df.emptyB = false) :
    (create_gold_table df).cols = colunas_finais := by
  unfold create_gold_table
  rw [if_neg (by simp [h])]

theorem proj7_projFinal (r : Row) : proj7 (projFinal r) = proj7 r := by
  unfold proj7 silverCore
  simp only [List.map_cons, List.map_nil]
  rw [getCellD_projFinal (by decide), getCellD_projFinal (by decide),
    getCellD_projFinal (by decide), getCellD_projFinal (by decide),
    getCellD_projFinal (by decide), getCellD_projFinal (by decide),
    getCellD_projFinal (by decide)]

theorem proj7_upsert_dcp (r : Row) (v : Cell) : proj7 (upsertCell r dcpCol v) = proj7 r := by
  unfold proj7 silverCore
  simp only [List.map_cons, List.map_nil]
  rw [getCellD_upsert_ne _ (by decide), getCellD_upsert_ne _ (by decide),
    getCellD_upsert_ne _ (by decide), getCellD_upsert_ne _ (by decide),
    getCellD_upsert_ne _ (by decide), getCellD_upsert_ne _ (by decide),
    getCellD_upsert_ne _ (by decide)]

theorem addDCP_cons_null {r : Row} (rs : List Row) (seen : List (Cell × FV))
    (h : (getCellD r "Ticker").isNull = true) :
    addDCP seen (r :: rs)
      = upsertCell r dcpCol (Cell.num (FV.fillnaZero FV.nan) true) :: addDCP seen rs := by
  simp only [addDCP]
  rw [if_pos h]

theorem addDCP_cons_group {r : Row} (rs : List Row) (seen : List (Cell × FV))
    (h : (getCellD r "Ticker").isNull = false) :
    addDCP seen (r :: rs)
      = upsertCell r dcpCol (Cell.num (FV.fillnaZero
          (FV.mul (pctChange ((seen.find? (fun p => p.1 == getCellD r "Ticker")).map Prod.snd)
            (Cell.toFV (getCellD r "Close"))) (FV.fin 100))) true)
        :: addDCP ((getCellD r "Ticker", Cell.toFV (getCellD r "Close")) :: seen) rs := by
  simp only [addDCP]
  rw [if_neg (by rw [h]; exact Bool.false_ne_true)]

theorem addDCP_map_proj7 : ∀ (l : List Row) (seen : List (Cell × FV)),
    (addDCP seen l).map proj7 = l.map proj7 := by
  intro l
  induction l with
  | nil => intro seen; rfl
  | cons r rs ih =>
    intro seen
    by_cases hnull : (getCellD r "Ticker").isNull = true
    · rw [addDCP_cons_null rs seen hnull]
      rw [List.map_cons, List.map_cons, proj7_upsert_dcp, ih]
    · have hnull' : (getCellD r "Ticker").isNull = false := by
        cases hb : (getCellD r "Ticker").isNull
        · rfl
        · exact absurd hb hnull
      rw [addDCP_cons_group rs seen hnull']
      rw [List.map_cons, List.map_cons, proj7_upsert_dcp, ih]

/-- C10: the Cleaner's output has exactly as many rows as its input, the
Aggregator's output has exactly as many rows as its input, and the
multiset of (Ticker, Date, Open, High, Low, Close, Volume) tuples of the
Aggregator's output rows is a permutation of that of its input rows: the
Aggregator only reorders rows, adds Daily_Change_Pct and drops the other
columns, leaving the seven value columns of each row unchanged. -/
theorem c10_row_preservation (df dg : Frame) :
    (transform_to_silver df).rows.length = df.rows.length ∧
    (create_gold_table dg).rows.length = dg.rows.length ∧
    ((create_gold_table dg).rows.map proj7).Perm (dg.rows.map proj7) := by
  refine ⟨?_, ?_, ?_⟩
  · by_cases he : df.emptyB = true
    · rw [transform_empty df he]
    · have hne : df.emptyB = false := by
        cases hb : df.emptyB
        · rfl
        · exact absurd hb he
      rw [transform_rows df hne, List.length_map]
  · by_cases he : dg.emptyB = true
    · rw [gold_empty dg he]
    · have hne : dg.emptyB = false := by
        cases hb : dg.emptyB
        · rfl
        · exact absurd hb he
      rw [gold_rows dg hne, List.length_map]
      have h1 := congrArg List.length (addDCP_map_proj7 (List.insertionSort rowLe dg.rows) [])
      rw [List.length_map, List.length_map] at h1
      rw [h1, List.length_insertionSort]
  · by_cases he : dg.emptyB = true
    · rw [gold_empty dg he]
    · have hne : dg.emptyB = false := by
        cases hb : dg.emptyB
        · rfl
        · exact absurd hb he
      rw [gold_rows dg hne, List.map_map]
      have hcomp : (proj7 ∘ projFinal) = proj7 := by
        funext r
        exact proj7_projFinal r
      rw [hcomp, addDCP_map_proj7]
      exact (List.perm_insertionSort rowLe dg.rows).map proj7

theorem isNull_beq_str_false {c : Cell} (h : c.isNull = true) (t : String) :
    (c == Cell.str t) = false := by
  cases c with
  | na => rfl
  | num x b =>
    cases x with
    | nan => rfl
    | inf s => simp [Cell.isNull] at h
    | fin q => simp [Cell.isNull] at h
  | int n b => simp [Cell.isNull] at h
  | str s => simp [Cell.isNull] at h
  | date d => simp [Cell.isNull] at h

theorem seenLookup_cons_ne {tk : Cell} {t : String} (c : FV) (seen : List (Cell × FV))
    (h : (tk == Cell.str t) = false) :
    seenLookup ((tk, c) :: seen) t = seenLookup seen t := by
  unfold seenLookup
  show Option.map Prod.snd (match tk == Cell.str t with
    | true => some (tk, c)
    | false => List.find? (fun p => p.1 == Cell.str t) seen) = _
  rw [h]

theorem seenLookup_cons_self {t : String} (c : FV) (seen : List (Cell × FV)) :
    seenLookup ((Cell.str t, c) :: seen) t = some c := by
  unfold seenLookup
  show Option.map Prod.snd (match Cell.str t == Cell.str t with
    | true => some (Cell.str t, c)
    | false => List.find? (fun p => p.1 == Cell.str t) seen) = some c
  rw [beq_self_eq_true (Cell.str t)]
  rfl

theorem addDCP_filter_chain (t : String) :
    ∀ (l : List Row) (seen : List (Cell × FV)),
      DCPChain (seenLookup seen t)
        ((addDCP seen l).filter (fun r => getCellD r "Ticker" == Cell.str t)) := by
  intro l
  induction l with
  | nil =>
    intro seen
    simp only [addDCP, List.filter_nil]
    trivial
  | cons r rs ih =>
    intro seen
    by_cases hnull : (getCellD r "Ticker").isNull = true
    · rw [addDCP_cons_null rs seen hnull, List.filter_cons]
      have hne : (getCellD (upsertCell r dcpCol (Cell.num (FV.fillnaZero FV.nan) true)) "Ticker"
          == Cell.str t) = false := by
        rw [getCellD_upsert_ne _ (by decide)]
        exact isNull_beq_str_false hnull t
      rw [if_neg (by rw [hne]; exact Bool.false_ne_true)]
      exact ih seen
    · have hnull' : (getCellD r "Ticker").isNull = false := by
        cases hb : (getCellD r "Ticker").isNull
        · rfl
        · exact absurd hb hnull
      rw [addDCP_cons_group rs seen hnull', List.filter_cons]
      by_cases ht : getCellD r "Ticker" = Cell.str t
      · have hcond : (getCellD (upsertCell r dcpCol (Cell.num (FV.fillnaZero
            (FV.mul (pctChange ((seen.find? (fun p => p.1 == getCellD r "Ticker")).map Prod.snd)
              (Cell.toFV (getCellD r "Close"))) (FV.fin 100))) true)) "Ticker"
            == Cell.str t) = true := by
          rw [getCellD_upsert_ne _ (by decide), ht]
          exact beq_self_eq_true _
        rw [if_pos hcond]
        simp only [DCPChain]
        constructor
        · rw [getCellD_upsert_self, getCellD_upsert_ne _ (by decide), ht]
          rfl
        · have htail := ih ((getCellD r "Ticker", Cell.toFV (getCellD r "Close")) :: seen)
          have hsl : seenLookup ((getCellD r "Ticker", Cell.toFV (getCellD r "Close")) :: seen) t
              = some (Cell.toFV (getCellD r "Close")) := by
            rw [ht]
            exact seenLookup_cons_self _ _
          rw [hsl] at htail
          rw [getCellD_upsert_ne _ (by decide)]
          exact htail
      · have hcond : (getCellD (upsertCell r dcpCol (Cell.num (FV.fillnaZero
            (FV.mul (pctChange ((seen.find? (fun p => p.1 == getCellD r "Ticker")).map Prod.snd)
              (Cell.toFV (getCellD r "Close"))) (FV.fin 100))) true)) "Ticker"
            == Cell.str t) = false := by
          rw [getCellD_upsert_ne _ (by decide)]
          exact beq_eq_false_iff_ne.mpr ht
        rw [if_neg (by rw [hcond]; exact Bool.false_ne_true)]
        have htail := ih ((getCellD r "Ticker", Cell.toFV (getCellD r "Close")) :: seen)
        rw [seenLookup_cons_ne _ _ (beq_eq_false_iff_ne.mpr ht)] at htail
        exact htail

theorem DCPChain_head {prev : Option FV} {l : List Row} (h : DCPChain prev l)
    (hlen : 0 < l.length) :
    getCellD (l.getD 0 []) dcpCol
      = Cell.num (FV.fillnaZero (FV.mul (pctChange prev
          (Cell.toFV (getCellD (l.getD 0 []) "Close"))) (FV.fin 100))) true := by
  cases l with
  | nil => simp at hlen
  | cons x xs =>
    simp only [DCPChain] at h
    exact h.1

theorem DCPChain_succ {l : List Row} : ∀ {prev : Option FV}, DCPChain prev l →
    ∀ i, i + 1 < l.length →
    getCellD (l.getD (i + 1) []) dcpCol
      = Cell.num (FV.fillnaZero (FV.mul (pctChange
          (some (Cell.toFV (getCellD (l.getD i []) "Close")))
          (Cell.toFV (getCellD (l.getD (i + 1) []) "Close"))) (FV.fin 100))) true := by
  induction l with
  | nil =>
    intro prev h i hi
    simp at hi
  | cons x xs ih =>
    intro prev h i hi
    simp only [DCPChain] at h
    cases i with
    | zero =>
      have hx : 0 < xs.length := by
        simpa using hi
      have hh := DCPChain_head h.2 hx
      simp only [List.getD_cons_succ, List.getD_cons_zero]
      exact hh
    | succ j =>
      have hj : j + 1 < xs.length := by
        simpa using hi
      have hh := ih h.2 j hj
      simp only [List.getD_cons_succ]
      exact hh

theorem DCPChain_map_projFinal : ∀ {l : List Row} {prev : Option FV},
    DCPChain prev l → DCPChain prev (l.map projFinal) := by
  intro l
  induction l with
  | nil =>
    intro prev h
    exact h
  | cons x xs ih =>
    intro prev h
    simp only [DCPChain] at h
    simp only [List.map_cons, DCPChain]
    constructor
    · rw [getCellD_projFinal (by decide), getCellD_projFinal (by decide)]
      exact h.1
    · rw [getCellD_projFinal (by decide)]
      exact ih h.2

/-- C2 counterexample: on a Gold table built from two rows of one ticker
whose Close values are both 0, the second row's Daily_Change_Pct is 0
(pandas computes 0/0 - 1 = NaN and fillna(0) replaces it), while the
claimed formula (Close2 / Close1 - 1) * 100 evaluates to NaN, so the
claimed equality fails. -/
theorem c2_counterexample :
    getCellD ((goldTickerRows zeroCloseGoldInput "A").getD 1 []) dcpCol
      = Cell.num (FV.fin 0) true ∧
    Cell.toFV (getCellD ((goldTickerRows zeroCloseGoldInput "A").getD 0 []) "Close")
      = FV.fin 0 ∧
    Cell.toFV (getCellD ((goldTickerRows zeroCloseGoldInput "A").getD 1 []) "Close")
      = FV.fin 0 ∧
    FV.mul (pctChange (some (FV.fin 0)) (FV.fin 0)) (FV.fin 100) = FV.nan ∧
    Cell.num (FV.fin 0) true ≠ Cell.num FV.nan true := by decide

/-- C2 (amended): in a Gold table built by the Aggregator from a
non-empty table with string tickers and finite float Close values, the
first row of every ticker has Daily_Change_Pct 0, and every later row of
that ticker carries (Close of the row / Close of the previous row of the
ticker - 1) * 100 with a NaN result (previous Close 0 and current Close
0, where the formula is undefined) replaced by 0.  Whenever the formula
is well defined this is exactly the claimed value. -/
theorem c2_daily_change_pct (df : Frame) (hne : df.emptyB = false)
    (hty : ∀ r ∈ df.rows, (∃ s, getCellD r "Ticker" = Cell.str s) ∧
        (∃ q, getCellD r "Close" = Cell.num (FV.fin q) true)) :
    ∀ t : String,
      (0 < (goldTickerRows df t).length →
        getCellD ((goldTickerRows df t).getD 0 []) dcpCol = Cell.num (FV.fin 0) true) ∧
      (∀ i, i + 1 < (goldTickerRows df t).length →
        getCellD ((goldTickerRows df t).getD (i + 1) []) dcpCol
          = Cell.num (FV.fillnaZero (FV.mul (pctChange
              (some (Cell.toFV (getCellD ((goldTickerRows df t).getD i []) "Close")))
              (Cell.toFV (getCellD ((goldTickerRows df t).getD (i + 1) []) "Close")))
              (FV.fin 100))) true) := by
  intro t
  have hp : ((fun r => getCellD r "Ticker" == Cell.str t) ∘ projFinal)
      = (fun r => getCellD r "Ticker" == Cell.str t) := by
    funext r
    show (getCellD (projFinal r) "Ticker" == Cell.str t) = _
    rw [getCellD_projFinal (by decide)]
  have hsub : goldTickerRows df t
      = ((addDCP [] (List.insertionSort rowLe df.rows)).filter
          (fun r => getCellD r "Ticker" == Cell.str t)).map projFinal := by
    unfold goldTickerRows
    rw [gold_rows df hne, List.filter_map, hp]
  have hchain : DCPChain none
      ((addDCP [] (List.insertionSort rowLe df.rows)).filter
        (fun r => getCellD r "Ticker" == Cell.str t)) := by
    have h := addDCP_filter_chain t (List.insertionSort rowLe df.rows) []
    exact h
  have hchain2 := DCPChain_map_projFinal hchain
  rw [hsub]
  constructor
  · intro hlen
    rw [DCPChain_head hchain2 hlen]
    rfl
  · intro i hi
    exact DCPChain_succ hchain2 i hi

/-- C2 witness: the amended Daily_Change_Pct theorem applied to a
two-row one-ticker table with Close 100 then 102 given out of order. -/
theorem c2_witness :
    getCellD ((goldTickerRows niceGoldInput "AAPL").getD 0 []) dcpCol
      = Cell.num (FV.fin 0) true ∧
    getCellD ((goldTickerRows niceGoldInput "AAPL").getD 1 []) dcpCol
      = Cell.num (FV.fillnaZero (FV.mul (pctChange
          (some (Cell.toFV (getCellD ((goldTickerRows niceGoldInput "AAPL").getD 0 []) "Close")))
          (Cell.toFV (getCellD ((goldTickerRows niceGoldInput "AAPL").getD 1 []) "Close")))
          (FV.fin 100))) true := by
  have h := c2_daily_change_pct niceGoldInput (by decide) ?_ "AAPL"
  · exact ⟨h.1 (by decide), h.2 0 (by decide)⟩
  · intro r hr
    have hr' : r = mkSilverRow "AAPL" ts2 (FV.fin 102) ∨ r = mkSilverRow "AAPL" ts1 (FV.fin 100) := by
      simpa [niceGoldInput] using hr
    rcases hr' with rfl | rfl
    · exact ⟨⟨"AAPL", by decide⟩, ⟨102, by decide⟩⟩
    · exact ⟨⟨"AAPL", by decide⟩, ⟨100, by decide⟩⟩

theorem getCellD_mapSnd (r : Row) (f : Cell → Cell) (c : String) :
    getCellD (r.map (fun p => (p.1, f p.2))) c = ((getCell r c).map f).getD Cell.na := by
  unfold getCellD
  rw [getCell_mapSnd]

theorem digitChar_mod_isDigit (n : ℕ) : (Nat.digitChar (n % 10)).isDigit = true := by
  have hlt : n % 10 < 10 := Nat.mod_lt _ (by norm_num)
  have hall : ∀ m : ℕ, m < 10 → (Nat.digitChar m).isDigit = true := by decide
  exact hall _ hlt

theorem isIsoDate_strftime (t : Timestamp) : isIsoDate (strftimeYmd t) = true := by
  unfold strftimeYmd pad4 pad2 isIsoDate
  simp only [List.cons_append, List.nil_append]
  simp [digitChar_mod_isDigit]

theorem transport_safe_pipeline (v : Cell) :
    Cell.isTransportSafe (Cell.to_builtin (if v.isNull then Cell.str "" else v)) = true := by
  cases v with
  | na => rfl
  | num x b => cases x <;> rfl
  | int n b => rfl
  | str s => rfl
  | date t => rfl

theorem sheets_length (df : Frame) :
    (dataframe_to_sheets_values df).length = df.rows.length + 1 := by
  unfold dataframe_to_sheets_values
  dsimp only
  by_cases hd : df.cols.contains "Date" = true
  · rw [if_pos hd]
    unfold Frame.mapColCells
    rw [rows_assign]
    simp [List.length_map]
  · rw [if_neg hd]
    simp [List.length_map]

theorem sheets_head (df : Frame) :
    (dataframe_to_sheets_values df).getD 0 [] = df.cols.map Cell.str := by
  unfold dataframe_to_sheets_values
  dsimp only
  by_cases hd : df.cols.contains "Date" = true
  · rw [if_pos hd]
    unfold Frame.mapColCells
    rw [cols_assign_of_contains hd]
    rfl
  · rw [if_neg hd]
    rfl

theorem sheets_grid_cell (df : Frame) {i j : ℕ} (hi : i < df.rows.length)
    (hj : j < df.cols.length) :
    ((dataframe_to_sheets_values df).getD (i + 1) []).getD j Cell.na
      = getCellD (((if df.cols.contains "Date" = true
            then upsertCell (df.rows.getD i []) "Date"
              (match to_datetime (getCellD (df.rows.getD i []) "Date") with
                | Cell.date t => Cell.str (strftimeYmd t)
                | _ => Cell.na)
            else df.rows.getD i []).map
              (fun p => (p.1, if p.2.isNull then Cell.str "" else p.2))).map
          (fun p => (p.1, p.2.to_builtin))) (df.cols.getD j "") := by
  unfold dataframe_to_sheets_values
  dsimp only
  by_cases hd : df.cols.contains "Date" = true
  · rw [if_pos hd, if_pos hd]
    unfold Frame.mapColCells
    rw [rows_assign, cols_assign_of_contains hd]
    simp only [List.map_map]
    rw [List.getD_cons_succ]
    rw [getD_map_lt _ _ hi _ []]
    dsimp only [Function.comp]
    rw [getD_map_lt _ _ hj _ ""]
    rw [List.map_map]
  · rw [if_neg hd, if_neg hd]
    simp only [List.map_map]
    rw [List.getD_cons_succ]
    rw [getD_map_lt _ _ hi _ []]
    dsimp only [Function.comp]
    rw [getD_map_lt _ _ hj _ ""]
    rw [List.map_map]

theorem wf_getCell_some (df : Frame) (hWF : df.WF = true) {i j : ℕ}
    (hi : i < df.rows.length) (hj : j < df.cols.length) :
    getCell (df.rows.getD i []) (df.cols.getD j "")
      = some (getCellD (df.rows.getD i []) (df.cols.getD j "")) := by
  have hrmem : df.rows.getD i [] ∈ df.rows := getD_mem _ hi
  have hcmem : df.cols.getD j "" ∈ df.cols := getD_mem _ hj
  unfold Frame.WF at hWF
  rw [List.all_eq_true] at hWF
  have hkeys : (df.rows.getD i []).map Prod.fst = df.cols := by
    have h2 := hWF _ hrmem
    exact beq_iff_eq.mp h2
  have hmem2 : df.cols.getD j "" ∈ (df.rows.getD i []).map Prod.fst := by
    rw [hkeys]
    exact hcmem
  have hs := getCell_isSome_of_key_mem hmem2
  obtain ⟨v, hv⟩ := Option.isSome_iff_exists.mp hs
  rw [hv]
  unfold getCellD
  rw [hv]
  rfl

theorem sheets_cell_value_other (df : Frame) (hWF : df.WF = true) {i j : ℕ}
    (hi : i < df.rows.length) (hj : j < df.cols.length)
    (hcj : df.cols.getD j "" ≠ "Date") :
    ((dataframe_to_sheets_values df).getD (i + 1) []).getD j Cell.na
      = Cell.to_builtin (if (getCellD (df.rows.getD i []) (df.cols.getD j "")).isNull
          then Cell.str "" else getCellD (df.rows.getD i []) (df.cols.getD j "")) := by
  rw [sheets_grid_cell df hi hj]
  have hv := wf_getCell_some df hWF hi hj
  by_cases hd : df.cols.contains "Date" = true
  · rw [if_pos hd]
    rw [getCellD_mapSnd, getCell_mapSnd _ (fun v => if v.isNull = true then Cell.str "" else v),
      getCell_upsert_ne _ hcj, hv]
    rfl
  · rw [if_neg hd]
    rw [getCellD_mapSnd, getCell_mapSnd _ (fun v => if v.isNull = true then Cell.str "" else v), hv]
    rfl

theorem sheets_cell_value_date (df : Frame) (hWF : df.WF = true) {i j : ℕ}
    (hi : i < df.rows.length) (hj : j < df.cols.length)
    (hcj : df.cols.getD j "" = "Date") :
    ((dataframe_to_sheets_values df).getD (i + 1) []).getD j Cell.na
      = Cell.to_builtin (if (match to_datetime (getCellD (df.rows.getD i []) "Date") with
            | Cell.date t => Cell.str (strftimeYmd t)
            | _ => Cell.na : Cell).isNull
          then Cell.str ""
          else (match to_datetime (getCellD (df.rows.getD i []) "Date") with
            | Cell.date t => Cell.str (strftimeYmd t)
            | _ => Cell.na)) := by
  have hd : df.cols.contains "Date" = true := by
    have hcmem : df.cols.getD j "" ∈ df.cols := getD_mem _ hj
    rw [hcj] at hcmem
    exact contains_of_mem hcmem
  rw [sheets_grid_cell df hi hj, hcj, if_pos hd]
  rw [getCellD_mapSnd, getCell_mapSnd _ (fun v => if v.isNull = true then Cell.str "" else v),
    getCell_upsert_self]
  rfl

/-- **C6** (dataframe_to_sheets_values, main.py lines 63-81).  For every
well-formed input frame whose Date cells (when a Date column exists) hold
in-range timestamps, the serialized grid is the header row of the column
names followed by exactly one row per record; every Date cell of it is an
ISO YYYY-MM-DD string, every null-like cell of a non-Date column becomes
the empty string, numeric cells lose their numpy array backing (native
scalars), and every cell of the grid is transport-safe. -/
theorem c6_sheets_serialization (df : Frame) (hWF : df.WF = true)
    (hdate : "Date" ∈ df.cols → ∀ r ∈ df.rows, ∃ t : Timestamp,
      getCellD r "Date" = Cell.date t ∧ 1678 ≤ t.y ∧ t.y ≤ 2261) :
    (dataframe_to_sheets_values df).length = df.rows.length + 1 ∧
    (dataframe_to_sheets_values df).getD 0 [] = df.cols.map Cell.str ∧
    ∀ i j, i < df.rows.length → j < df.cols.length →
      Cell.isTransportSafe
          (((dataframe_to_sheets_values df).getD (i + 1) []).getD j Cell.na) = true ∧
      (df.cols.getD j "" = "Date" → ∃ s,
        ((dataframe_to_sheets_values df).getD (i + 1) []).getD j Cell.na = Cell.str s ∧
        isIsoDate s = true) ∧
      (df.cols.getD j "" ≠ "Date" →
        (getCellD (df.rows.getD i []) (df.cols.getD j "")).isNull = true →
        ((dataframe_to_sheets_values df).getD (i + 1) []).getD j Cell.na = Cell.str "") ∧
      (df.cols.getD j "" ≠ "Date" → ∀ x b,
        getCellD (df.rows.getD i []) (df.cols.getD j "") = Cell.num x b → x ≠ FV.nan →
        ((dataframe_to_sheets_values df).getD (i + 1) []).getD j Cell.na
          = Cell.num x false) ∧
      (df.cols.getD j "" ≠ "Date" → ∀ n b,
        getCellD (df.rows.getD i []) (df.cols.getD j "") = Cell.int n b →
        ((dataframe_to_sheets_values df).getD (i + 1) []).getD j Cell.na
          = Cell.int n false) := by
  refine ⟨sheets_length df, sheets_head df, ?_⟩
  intro i j hi hj
  by_cases hcj : df.cols.getD j "" = "Date"
  · have hd : "Date" ∈ df.cols := by rw [← hcj]; exact getD_mem "" hj
    obtain ⟨t, hv, hy1, hy2⟩ := hdate hd _ (getD_mem [] hi)
    have hb : (1678 ≤ t.y && t.y ≤ 2261) = true := by
      rw [Bool.and_eq_true, decide_eq_true_eq, decide_eq_true_eq]
      exact ⟨hy1, hy2⟩
    have hcell : ((dataframe_to_sheets_values df).getD (i + 1) []).getD j Cell.na
        = Cell.str (strftimeYmd t) := by
      rw [sheets_cell_value_date df hWF hi hj hcj, hv]
      simp only [to_datetime]
      rw [if_pos hb]
      rfl
    refine ⟨?_, ?_, ?_, ?_, ?_⟩
    · rw [hcell]; rfl
    · intro _; exact ⟨strftimeYmd t, hcell, isIsoDate_strftime t⟩
    · intro h; exact absurd hcj h
    · intro h; exact absurd hcj h
    · intro h; exact absurd hcj h
  · have hc := sheets_cell_value_other df hWF hi hj hcj
    refine ⟨?_, ?_, ?_, ?_, ?_⟩
    · rw [hc]; exact transport_safe_pipeline _
    · intro h; exact absurd h hcj
    · intro _ hnull
      rw [hc, if_pos hnull]
      rfl
    · intro _ x b hv hx
      have hnn : (Cell.num x b).isNull = false := by
        cases x with
        | nan => exact absurd rfl hx
        | inf s => rfl
        | fin q => rfl
      rw [hc, hv, hnn]
      rfl
    · intro _ n b hv
      rw [hc, hv]
      rfl

theorem c6_witness :
    (dataframe_to_sheets_values sheetsFrame).length = sheetsFrame.rows.length + 1 :=
  (c6_sheets_serialization sheetsFrame (by decide)
    (fun _ r hr => ⟨ts1, by
      rcases List.mem_singleton.mp hr with rfl
      exact ⟨by decide, by decide, by decide⟩⟩)).1

theorem cellKey_pair_le_iff (s1 s2 : String) (t1 t2 : Timestamp) :
    (toLex (cellKey (Cell.str s1), cellKey (Cell.date t1)))
      ≤ (toLex (cellKey (Cell.str s2), cellKey (Cell.date t2)))
    ↔ (toLex ((s1.data.map Char.toNat), toLex (t1.y, toLex (t1.m, t1.d))))
      ≤ (toLex ((s2.data.map Char.toNat), toLex (t2.y, toLex (t2.m, t2.d)))) := by
  simp only [cellKey, mkCellKey]
  simp [Prod.Lex.le_iff, Prod.Lex.lt_iff, toLex_inj, Prod.mk.injEq,
    lt_self_iff_false, le_iff_lt_or_eq]

theorem goldKey_typed {r : Row} {s : String} {t : Timestamp}
    (ht : getCellD r "Ticker" = Cell.str s) (hd : getCellD r "Date" = Cell.date t) :
    goldKey r = toLex ((s.data.map Char.toNat), toLex (t.y, toLex (t.m, t.d))) := by
  unfold goldKey tickerStr dateTs
  rw [ht, hd]

theorem rowLe_imp_goldLe {r1 r2 : Row} {s1 s2 : String} {t1 t2 : Timestamp}
    (h1t : getCellD r1 "Ticker" = Cell.str s1) (h1d : getCellD r1 "Date" = Cell.date t1)
    (h2t : getCellD r2 "Ticker" = Cell.str s2) (h2d : getCellD r2 "Date" = Cell.date t2)
    (h : rowLe r1 r2) : goldLe r1 r2 := by
  unfold rowLe at h
  rw [h1t, h1d, h2t, h2d] at h
  unfold goldLe
  rw [goldKey_typed h1t h1d, goldKey_typed h2t h2d]
  exact (cellKey_pair_le_iff s1 s2 t1 t2).mp h

theorem goldKey_upsert_dcp (r : Row) (v : Cell) :
    goldKey (upsertCell r dcpCol v) = goldKey r := by
  unfold goldKey tickerStr dateTs
  rw [getCellD_upsert_ne r (show "Ticker" ≠ dcpCol by decide) v,
    getCellD_upsert_ne r (show "Date" ≠ dcpCol by decide) v]

theorem goldKey_projFinal (r : Row) : goldKey (projFinal r) = goldKey r := by
  unfold goldKey tickerStr dateTs
  rw [getCellD_projFinal (show "Ticker" ∈ colunas_finais by decide) r,
    getCellD_projFinal (show "Date" ∈ colunas_finais by decide) r]

theorem addDCP_goldKeys : ∀ (rs : List Row) (seen : List (Cell × FV)),
    (addDCP seen rs).map goldKey = rs.map goldKey := by
  intro rs
  induction rs with
  | nil => intro seen; rfl
  | cons r rs ih =>
    intro seen
    cases hb : (getCellD r "Ticker").isNull with
    | true =>
      rw [addDCP_cons_null rs seen hb]
      simp only [List.map_cons]
      rw [goldKey_upsert_dcp, ih]
    | false =>
      rw [addDCP_cons_group rs seen hb]
      simp only [List.map_cons]
      rw [goldKey_upsert_dcp, ih]

/-- **C7** (create_gold_table, main.py lines 112-127).  For every
non-empty Silver table whose Ticker cells are strings and Date cells are
timestamps, the Gold table's columns are exactly Ticker, Date, Open,
High, Low, Close, Volume, Daily_Change_Pct in that order, every row
carries exactly those keys in that order (all other input columns are
dropped), and the rows are sorted ascending by (Ticker, Date). -/
theorem c7_gold_sorted_projected (df : Frame) (hne : df.emptyB = false)
    (hty : ∀ r ∈ df.rows, (∃ s, getCellD r "Ticker" = Cell.str s) ∧
      (∃ t, getCellD r "Date" = Cell.date t)) :
    (create_gold_table df).cols = colunas_finais ∧
    (∀ r ∈ (create_gold_table df).rows, r.map Prod.fst = colunas_finais) ∧
    List.Sorted goldLe (create_gold_table df).rows := by
  refine ⟨gold_cols df hne, ?_, ?_⟩
  · rw [gold_rows df hne]
    intro r hr
    obtain ⟨r', hmem, rfl⟩ := List.mem_map.mp hr
    rfl
  · rw [gold_rows df hne]
    have hs : List.Pairwise rowLe (List.insertionSort rowLe df.rows) :=
      List.sorted_insertionSort rowLe df.rows
    have hPg : List.Pairwise goldLe (List.insertionSort rowLe df.rows) := by
      refine hs.imp_of_mem ?_
      intro a b ha hb hab
      obtain ⟨⟨sa, hsa⟩, ⟨ta, hta⟩⟩ := hty a ((List.perm_insertionSort rowLe df.rows).subset ha)
      obtain ⟨⟨sb, hsb⟩, ⟨tb, htb⟩⟩ := hty b ((List.perm_insertionSort rowLe df.rows).subset hb)
      exact rowLe_imp_goldLe hsa hta hsb htb hab
    have h2 : List.Pairwise (fun a b => a ≤ b)
        ((List.insertionSort rowLe df.rows).map goldKey) :=
      List.pairwise_map.mpr hPg
    have h4 : List.Pairwise (fun a b => a ≤ b)
        ((addDCP [] (List.insertionSort rowLe df.rows)).map goldKey) := by
      rw [addDCP_goldKeys]
      exact h2
    have h5 : List.Pairwise goldLe (addDCP [] (List.insertionSort rowLe df.rows)) :=
      (@List.pairwise_map _ _ goldKey (fun a b => a ≤ b)
        (addDCP [] (List.insertionSort rowLe df.rows))).mp h4
    show List.Pairwise goldLe ((addDCP [] (List.insertionSort rowLe df.rows)).map projFinal)
    refine List.pairwise_map.mpr ?_
    refine h5.imp ?_
    intro a b hab
    show goldKey (projFinal a) ≤ goldKey (projFinal b)
    rw [goldKey_projFinal, goldKey_projFinal]
    exact hab

theorem c7_witness : (create_gold_table niceGoldInput).cols = colunas_finais :=
  (c7_gold_sorted_projected niceGoldInput (by decide)
    (fun r hr => by
      rcases List.mem_cons.mp hr with rfl | hr2
      · exact ⟨⟨"AAPL", by decide⟩, ⟨ts2, by decide⟩⟩
      · rcases List.mem_cons.mp hr2 with rfl | hr3
        · exact ⟨⟨"AAPL", by decide⟩, ⟨ts1, by decide⟩⟩
        · exact absurd hr3 (List.not_mem_nil r))).1
